import Mathlib

/-!
Verification development for the ODLM ontology layer
(`code/core/ontology.py` / `code/core/databases/neo4j/neo4j_service.py`).

The Neo4j store is shallowly embedded as a labeled-property graph:
nodes carry a numeric identity, a list of labels, a `name` property
(kept as a dedicated field, since every query in the source matches on
it) and the remaining properties as an association list; edges carry a
type and properties.  Each Python method becomes a pure Lean function
over this graph; write queries return the new graph next to the
result, read queries only inspect it.  `datetime.now()` is passed in
explicitly as a `now : String` argument.  A raised Python exception is
an `Except.error` carrying the structured content the source renders
into its message.
-/

namespace ODLM

/-- Property values stored on nodes and relationships (Neo4j scalars
and arrays); `null` models Python `None`. -/
inductive Val where
  | str (s : String)
  | int (n : Int)
  | bool (b : Bool)
  | strList (xs : List String)
  | null
  deriving Repr, BEq, DecidableEq

/-- A graph node: identity, labels, the `name` property (separate
field) and all further properties. -/
structure Node where
  nid : Nat
  labels : List String
  name : String
  props : List (String × Val)
  deriving Repr, BEq, DecidableEq

/-- A relationship `src -[typ]-> dst` with properties. -/
structure Edge where
  src : Nat
  dst : Nat
  typ : String
  props : List (String × Val)
  deriving Repr, BEq, DecidableEq

/-- The graph store state. -/
structure Graph where
  nodes : List Node
  edges : List Edge
  deriving Repr, BEq, DecidableEq

/-- Association-list lookup (Python `dict.get`). -/
def lookupAssoc {α : Type} (m : List (String × α)) (k : String) : Option α :=
  (m.find? (fun kv => kv.1 == k)).map (fun kv => kv.2)

/-- Python dict assignment `m[k] = v`: replace the entry in place if
the key exists (keys are unique in a Python dict, so replacing the
first occurrence is exact), otherwise append. -/
def updateAssoc {α : Type} : List (String × α) → String → α → List (String × α)
  | [], k, v => [(k, v)]
  | kv :: t, k, v => if kv.1 == k then (k, v) :: t else kv :: updateAssoc t k v

/-- Apply a whole dict of updates in order (Python `dict.update`). -/
def updateAll (m : List (String × Val)) (upd : List (String × Val)) : List (String × Val) :=
  upd.foldl (fun acc kv => updateAssoc acc kv.1 kv.2) m

def nodeHasLabel (n : Node) (l : String) : Bool :=
  n.labels.contains l

/-- Read a (non-`name`) property off a node. -/
def nodeProp (n : Node) (k : String) : Option Val :=
  lookupAssoc n.props k

/-- `dict(node)` for a Neo4j node: all properties including `name`. -/
def nodeAsDict (n : Node) : List (String × Val) :=
  updateAssoc n.props "name" (Val.str n.name)

/-- Does a node match a `{name: $name}` equality against an arbitrary
parameter value (non-string parameters never match, as in Cypher)? -/
def nameMatchesVal (n : Node) (v : Val) : Bool :=
  match v with
  | Val.str s => n.name == s
  | _ => false

/-- Nodes matching `(n:label {name: $name})`, in storage order. -/
def matchLabelName (g : Graph) (l name : String) : List Node :=
  g.nodes.filter (fun n => nodeHasLabel n l && n.name == name)

/-- Nodes matching `(n {name: $name})` (no label restriction). -/
def matchName (g : Graph) (name : String) : List Node :=
  g.nodes.filter (fun n => n.name == name)

/-- A fresh node id (one above the maximum in use). -/
def freshNid (g : Graph) : Nat :=
  (g.nodes.map (fun n => n.nid)).foldl Nat.max 0 + 1

def findNode (g : Graph) (i : Nat) : Option Node :=
  g.nodes.find? (fun n => n.nid == i)

/-!  Structured errors.  The source raises `Exception(msg)` with a
rendered message; each constructor carries the data that message is
built from. -/

/-- Rows returned by the required-property queries of
`get_required_properties_for_concept`. -/
structure PropRow where
  property_name : String
  property_type : Option Val
  range_type : Option Val
  comment : Option Val
  tag : Option Val
  required : Bool
  default_value : Option Val
  inheritance_type : String
  source_concept : String
  deriving Repr, BEq, DecidableEq

/-- The `prop_info` dict built for each missing property by
`validate_instance_properties`. -/
structure MissingInfo where
  name : String
  type : Option Val
  range : Option Val
  comment : Option Val
  tag : Option Val
  inheritance_type : String
  source_concept : String
  default_value : Option Val
  deriving Repr, BEq, DecidableEq

/-- The `validation_result` dict of `validate_instance_properties`. -/
structure ValidationResult where
  valid : Bool
  total_required : Nat
  direct_required : Nat
  inherited_required : Nat
  provided_count : Nat
  missing_properties : List MissingInfo
  missing_direct : List MissingInfo
  missing_inherited : List MissingInfo
  required_properties : List PropRow
  inheritance_enabled : Bool
  deriving Repr, BEq, DecidableEq

/-- The exceptions raised by the ontology service, carrying the data
their messages are rendered from. -/
inductive OErr where
  | validationError (vr : ValidationResult)
  | missingTargets (pairs : List (String × Val))
  | domainNotFound (name : String)
  | domainConflict (name : String) (labelsLists : List (List String))
  | missingConcept (concept lbl : String)
  | renameSourceMissing (oldName lbl : String)
  | renameConflict (newName lbl : String)
  | renameNotAllowed (instanceName newName : String)
  | objectNotFound (name : String)
  | instanceNotFound (name : String)
  deriving Repr, BEq, DecidableEq

/-!  ## NameRegistry: `check_name_exists`, `get_existing_node`,
`find_nodes_by_name`, `auto_detect_domain_label` -/

/-- `check_name_exists`: `MATCH (n[:label] {name: $name}) RETURN count(n) > 0`. -/
def check_name_exists (g : Graph) (name : String) (lbl : Option String) : Bool :=
  match lbl with
  | some l => !(matchLabelName g l name).isEmpty
  | none => !(matchName g name).isEmpty

/-- `check_name_exists` when the `$name` parameter is an arbitrary
value (as in ObjectProperty target validation). -/
def check_name_exists_val (g : Graph) (name : Val) (lbl : Option String) : Bool :=
  match lbl with
  | some l => g.nodes.any (fun n => nodeHasLabel n l && nameMatchesVal n name)
  | none => g.nodes.any (fun n => nameMatchesVal n name)

/-- `get_existing_node`: `MATCH ... RETURN n` through `run_query_single`,
i.e. the first matching node in storage order. -/
def get_existing_node (g : Graph) (name : String) (lbl : Option String) : Option Node :=
  match lbl with
  | some l => (matchLabelName g l name).head?
  | none => (matchName g name).head?

/-- Kernel-computable lexicographic comparison of character lists (the
string collation used by the `ORDER BY` clauses of the embedded
queries). -/
def charsLe : List Char → List Char → Bool
  | [], _ => true
  | _ :: _, [] => false
  | c :: cs, d :: ds =>
      if c.toNat < d.toNat then true
      else if d.toNat < c.toNat then false
      else charsLe cs ds

/-- Lexicographic `<=` on strings. -/
def strLe (a b : String) : Bool :=
  charsLe a.toList b.toList

/-- Lexicographic comparison of label lists, for the
`ORDER BY labels(n)` clause of `find_nodes_by_name`. -/
def labelsLe : List String → List String → Bool
  | [], _ => true
  | _ :: _, [] => false
  | a :: as_, b :: bs => if a == b then labelsLe as_ bs else strLe a b

/-- `find_nodes_by_name`: all nodes with the given name across all
labels, ordered by their label list. -/
def find_nodes_by_name (g : Graph) (name : String) : List Node :=
  (matchName g name).insertionSort (fun a b => labelsLe a.labels b.labels)

/-- The label-priority list: the `labels_to_constrain` constructor
default of `OntologyService`. -/
def defaultLabelsToConstrain : List String :=
  ["Concept", "Instance", "Property", "Class", "Individual"]

/-- The primary-label scan of `auto_detect_domain_label` on a single
match: first priority label present among the node's labels; the
Python truthiness test `if not primary_label` sends both `None` and an
empty string to the fallback `node_labels[0] if node_labels else "Node"`. -/
def primaryLabelOf (priority : List String) (n : Node) : String :=
  match priority.find? (fun pl => n.labels.contains pl) with
  | some p => if p == "" then n.labels.headD "Node" else p
  | none => n.labels.headD "Node"

/-- `auto_detect_domain_label`: trichotomy on the number of nodes
bearing the name. -/
def auto_detect_domain_label (g : Graph) (priority : List String) (domain_name : String) :
    Except OErr String :=
  match find_nodes_by_name g domain_name with
  | [] => Except.error (OErr.domainNotFound domain_name)
  | [n] => Except.ok (primaryLabelOf priority n)
  | ns => Except.error (OErr.domainConflict domain_name (ns.map (fun n => n.labels)))

/-!  ## PropertyClassifier: `_identify_property_types` -/

/-- Rows of the batched classification query
`MATCH (p:Property) WHERE p.name IN $property_names RETURN p.name, p.property_type`,
in storage order. -/
def propertyTypeRows (g : Graph) (names : List String) : List (String × Option Val) :=
  (g.nodes.filter (fun p => nodeHasLabel p "Property" && names.contains p.name)).map
    (fun p => (p.name, nodeProp p "property_type"))

/-- The row-processing loop of `_identify_property_types`: build the
dict from the query rows (the Python truthiness guard `if prop_name:`
skips an empty name), then default every name still absent to
`'DataProperty'`, recording a warning for it. -/
def buildPropertyTypes (rows : List (String × Option Val)) (names : List String) :
    List (String × Option Val) × List String :=
  let fromRows := rows.foldl
    (fun acc row => if row.1 != "" then updateAssoc acc row.1 row.2 else acc) []
  names.foldl
    (fun acc n =>
      if acc.1.any (fun kv => kv.1 == n) then acc
      else (acc.1 ++ [(n, some (Val.str "DataProperty"))], acc.2 ++ [n]))
    (fromRows, [])

/-- `_identify_property_types`, parameterised over the outcome of the
store query so the `except` fallback (swallow the failure and default
everything to `'DataProperty'`) is part of the model.  Returns the
mapping next to the names that were defaulted with a warning. -/
def identify_property_types_from (queryOutcome : Except String (List (String × Option Val)))
    (names : List String) : List (String × Option Val) × List String :=
  if names.isEmpty then ([], [])
  else
    match queryOutcome with
    | Except.error _ =>
        (names.foldl (fun acc n => updateAssoc acc n (some (Val.str "DataProperty"))) [], [])
    | Except.ok rows => buildPropertyTypes rows names

/-- `_identify_property_types` against a live (non-failing) store. -/
def identify_property_types (g : Graph) (names : List String) :
    List (String × Option Val) × List String :=
  identify_property_types_from (Except.ok (propertyTypeRows g names)) names

/-- `property_types.get(prop_name, "DataProperty") == "ObjectProperty"`:
the test create_instance_node uses to route a property to the
ObjectProperty bucket. -/
def isObjectPropertyIn (types : List (String × Option Val)) (name : String) : Bool :=
  match lookupAssoc types name with
  | some (some (Val.str t)) => t == "ObjectProperty"
  | _ => false

/-!  ## InheritanceResolver: `get_required_properties_for_concept` -/

/-- One `SUBCLASS_OF` edge from node id `a` to node id `b`. -/
def subclassEdge (g : Graph) (a b : Nat) : Bool :=
  g.edges.any (fun e => e.typ == "SUBCLASS_OF" && e.src == a && e.dst == b)

/-- Fuel-bounded reflexive-transitive `SUBCLASS_OF` reachability;
intermediate hops run over the node list, so fuel `g.nodes.length + 1`
covers every simple path. -/
def reachesWithin (g : Graph) : Nat → Nat → Nat → Bool
  | 0, a, b => a == b
  | fuel + 1, a, b =>
      a == b || g.nodes.any (fun m => subclassEdge g a m.nid && reachesWithin g fuel m.nid b)

/-- `(a)-[:SUBCLASS_OF*0..]->(b)`. -/
def reach0 (g : Graph) (a b : Nat) : Bool :=
  reachesWithin g (g.nodes.length + 1) a b

/-- `(a)-[:SUBCLASS_OF*]->(b)` (one or more steps). -/
def reach1 (g : Graph) (a b : Nat) : Bool :=
  g.nodes.any (fun m => subclassEdge g a m.nid && reach0 g m.nid b)

/-- `r.required = true` on a `HAS_PROPERTY` edge. -/
def edgeRequired (e : Edge) : Bool :=
  lookupAssoc e.props "required" == some (Val.bool true)

/-- Is there any `HAS_PROPERTY` edge from node id `c` to node id `p`? -/
def hasPropertyEdge (g : Graph) (c p : Nat) : Bool :=
  g.edges.any (fun e => e.typ == "HAS_PROPERTY" && e.src == c && e.dst == p)

/-- Build one result row of the required-property queries from a
property node and its `HAS_PROPERTY` edge. -/
def mkPropRow (p : Node) (e : Edge) (inh source : String) : PropRow :=
  { property_name := p.name
    property_type := nodeProp p "property_type"
    range_type := nodeProp p "range"
    comment := nodeProp p "comment"
    tag := nodeProp p "tag"
    required := true
    default_value := lookupAssoc e.props "default_value"
    inheritance_type := inh
    source_concept := source }

/-- Raw rows of the direct query
`MATCH (c:lbl {name})-[r:HAS_PROPERTY]->(p:Property) WHERE r.required = true`,
before its `ORDER BY p.name`. -/
def directRowsRaw (g : Graph) (clabel cname : String) : List PropRow :=
  (matchLabelName g clabel cname).flatMap (fun c =>
    g.edges.flatMap (fun e =>
      if e.typ == "HAS_PROPERTY" && e.src == c.nid && edgeRequired e then
        match findNode g e.dst with
        | some p => if nodeHasLabel p "Property" then [mkPropRow p e "direct" cname] else []
        | none => []
      else []))

/-- The `NOT EXISTS { ... }` override filter of the inherited query:
some `intermediate` with a `HAS_PROPERTY` edge to `p` lies strictly
between `c` and `parent` (reachable from `c` in one or more steps and
reaching `parent` in one or more steps) and is named differently from
`parent`. -/
def overriddenBetween (g : Graph) (c parent : Node) (p : Node) : Bool :=
  g.nodes.any (fun im =>
    reach0 g c.nid im.nid && hasPropertyEdge g im.nid p.nid &&
    im.name != parent.name &&
    reach1 g c.nid im.nid && reach1 g im.nid parent.nid)

/-- Raw rows of the inherited query
`MATCH (c:lbl {name})-[:SUBCLASS_OF*]->(parent)-[r:HAS_PROPERTY]->(p:Property)
WHERE r.required = true AND NOT EXISTS {...}`, before `DISTINCT` and
`ORDER BY parent.name, p.name`. -/
def inheritedRowsRaw (g : Graph) (clabel cname : String) : List PropRow :=
  (matchLabelName g clabel cname).flatMap (fun c =>
    g.nodes.flatMap (fun parent =>
      if reach1 g c.nid parent.nid then
        g.edges.flatMap (fun e =>
          if e.typ == "HAS_PROPERTY" && e.src == parent.nid && edgeRequired e then
            match findNode g e.dst with
            | some p =>
                if nodeHasLabel p "Property" && !overriddenBetween g c parent p then
                  [mkPropRow p e "inherited" parent.name]
                else []
            | none => []
          else [])
      else []))

/-- `ORDER BY p.name` on the direct rows. -/
def directRows (g : Graph) (clabel cname : String) : List PropRow :=
  (directRowsRaw g clabel cname).insertionSort
    (fun a b => strLe a.property_name b.property_name = true)

/-- `RETURN DISTINCT ... ORDER BY parent.name, p.name` on the
inherited rows. -/
def inheritedRows (g : Graph) (clabel cname : String) : List PropRow :=
  (inheritedRowsRaw g clabel cname).dedup.insertionSort
    (fun a b =>
      (if a.source_concept == b.source_concept
       then strLe a.property_name b.property_name
       else strLe a.source_concept b.source_concept) = true)

/-- `get_required_properties_for_concept`: direct rows, then (when
`include_inherited`) the inherited rows whose property name is not
already present in the direct set. -/
def get_required_properties_for_concept (g : Graph) (cname clabel : String)
    (include_inherited : Bool) : List PropRow :=
  let direct_props := directRows g clabel cname
  if include_inherited then
    let inherited_props := inheritedRows g clabel cname
    let direct_prop_names := direct_props.map (fun r => r.property_name)
    direct_props ++
      inherited_props.filter (fun r => !direct_prop_names.contains r.property_name)
  else direct_props

/-!  ## ValidationEngine: `validate_instance_properties` -/

/-- The `prop_info` dict built for one missing required property. -/
def mkMissingInfo (r : PropRow) : MissingInfo :=
  { name := r.property_name
    type := r.property_type
    range := r.range_type
    comment := r.comment
    tag := r.tag
    inheritance_type := r.inheritance_type
    source_concept := r.source_concept
    default_value := r.default_value }

/-- `validate_instance_properties`: diff the required properties
against the provided keys, accumulate every gap, and raise a
`ValidationError` (carrying the whole result, from which the source
renders its message) when any property is missing. -/
def validate_instance_properties (g : Graph) (cname : String)
    (provided : List (String × Val)) (clabel : String) (include_inherited : Bool) :
    Except OErr ValidationResult :=
  let required_props := get_required_properties_for_concept g cname clabel include_inherited
  let provided_prop_names := provided.map (fun kv => kv.1)
  let missing_props := (required_props.filter
    (fun r => !provided_prop_names.contains r.property_name)).map mkMissingInfo
  let missing_direct := missing_props.filter (fun i => i.inheritance_type == "direct")
  let missing_inherited := missing_props.filter (fun i => i.inheritance_type == "inherited")
  let direct_count := required_props.countP (fun r => r.inheritance_type == "direct")
  let inherited_count := required_props.countP (fun r => r.inheritance_type == "inherited")
  let vr : ValidationResult :=
    { valid := missing_props.isEmpty
      total_required := required_props.length
      direct_required := direct_count
      inherited_required := inherited_count
      provided_count := provided_prop_names.length
      missing_properties := missing_props
      missing_direct := missing_direct
      missing_inherited := missing_inherited
      required_properties := required_props
      inheritance_enabled := include_inherited }
  if vr.valid then Except.ok vr else Except.error (OErr.validationError vr)

/-!  ## RelationshipManager: `Neo4jService.create_relationship` -/

/-- A Cypher node pattern `:Label {name: $param}` as used by every
call site of `create_relationship`. -/
structure NodePat where
  label : Option String
  name : Val
  deriving Repr, BEq, DecidableEq

def matchesPat (n : Node) (p : NodePat) : Bool :=
  (match p.label with
   | some l => nodeHasLabel n l
   | none => true) && nameMatchesVal n p.name

def matchPat (g : Graph) (p : NodePat) : List Node :=
  g.nodes.filter (fun n => matchesPat n p)

/-- Result summary of a write query (`execute_write`); the returned
records are not consumed by any caller modelled here and are omitted. -/
structure WriteStats where
  nodes_created : Nat := 0
  nodes_deleted : Nat := 0
  relationships_created : Nat := 0
  relationships_deleted : Nat := 0
  properties_set : Nat := 0
  status : Option String := none
  warning : Option String := none
  deriving Repr, BEq, DecidableEq

/-- `EXISTS((a)-[:t]->(b))`. -/
def relExistsBetween (g : Graph) (a b : Nat) (t : String) : Bool :=
  g.edges.any (fun e => e.src == a && e.dst == b && e.typ == t)

/-- Number of `t`-typed edges from node id `a` to node id `b`. -/
def countRel (g : Graph) (a b : Nat) (t : String) : Nat :=
  (g.edges.filter (fun e => e.src == a && e.dst == b && e.typ == t)).length

/-- `Neo4jService.create_relationship`: match both endpoint patterns,
probe `EXISTS((from)-[:type]->(to))` on the first matched pair (the
probe goes through `run_query_single`, hence the first row), and
either skip with an `already_exists` status and warning or create one
edge per matched pair. -/
def create_relationship (g : Graph) (fromPat toPat : NodePat) (relType : String)
    (props : List (String × Val)) : Graph × WriteStats :=
  let froms := matchPat g fromPat
  let tos := matchPat g toPat
  let pairs := froms.flatMap (fun a => tos.map (fun b => (a, b)))
  let alreadyExists :=
    match pairs.head? with
    | some ab => relExistsBetween g ab.1.nid ab.2.nid relType
    | none => false
  if alreadyExists then
    (g, { status := some "already_exists"
          warning := some ("Relationship " ++ relType ++ " already exists and was skipped") })
  else
    let newEdges := pairs.map (fun ab => Edge.mk ab.1.nid ab.2.nid relType props)
    ({ g with edges := g.edges ++ newEdges },
     { relationships_created := newEdges.length
       properties_set := newEdges.length * props.length })

/-- `Neo4jService.was_skipped_due_to_constraint`. -/
def was_skipped_due_to_constraint (r : WriteStats) : Bool :=
  r.status == some "already_exists"

/-!  ## Node write helpers: `_add_common_properties`,
`_create_node_with_merge`, `_update_node`, `_rename_node` -/

/-- `_add_common_properties`: ensure `comment` and `tag` exist, then
stamp `created_at` with the current time. -/
def _add_common_properties (props : List (String × Val)) (now : String) :
    List (String × Val) :=
  let p1 := if props.any (fun kv => kv.1 == "comment") then props
            else props ++ [("comment", Val.str "")]
  let p2 := if p1.any (fun kv => kv.1 == "tag") then p1
            else p1 ++ [("tag", Val.str "")]
  updateAssoc p2 "created_at" (Val.str now)

/-- `SET n.k = v` for one key (a string value under the key `name`
changes the node's name property). -/
def setNodeProp (n : Node) (k : String) (v : Val) : Node :=
  if k == "name" then
    match v with
    | Val.str s => { n with name := s }
    | _ => { n with props := updateAssoc n.props k v }
  else { n with props := updateAssoc n.props k v }

def setNodeProps (n : Node) (kvs : List (String × Val)) : Node :=
  kvs.foldl (fun m kv => setNodeProp m kv.1 kv.2) n

/-- `_create_node_with_merge`:
`MERGE (n:labels {name: $name}) ON CREATE SET n += $properties`.  If a
node carrying all the requested labels and the name exists the merge
matches it and writes nothing; otherwise a fresh node is created with
the given properties.  (`properties_set` models the summary counter:
the name from the merge pattern plus one per property.) -/
def _create_node_with_merge (g : Graph) (lbl name : String)
    (props : List (String × Val)) (additional_labels : List String) :
    Graph × WriteStats :=
  let labels_list := lbl :: additional_labels
  match g.nodes.find? (fun n => labels_list.all (fun l => nodeHasLabel n l) && n.name == name) with
  | some _ => (g, {})
  | none =>
    let base : Node := { nid := freshNid g, labels := labels_list, name := name, props := [] }
    ({ g with nodes := g.nodes ++ [setNodeProps base props] },
     { nodes_created := 1, properties_set := props.length + 1 })

/-- Result dict of `_update_node` / `_rename_node` (returned records
omitted as above). -/
structure UpdateResult where
  nodes_created : Nat := 0
  nodes_updated : Nat := 0
  properties_set : Nat := 0
  status : String
  deriving Repr, BEq, DecidableEq

/-- `_update_node`: stamp `updated_at`, then
`MATCH (n:lbl {name: $name}) SET n.k = $k, ...` over every matching
node; the source reports `nodes_updated = 1` and
`properties_set = len(properties)` regardless of the store summary. -/
def _update_node (g : Graph) (name lbl : String) (props : List (String × Val))
    (now : String) : Graph × UpdateResult :=
  let props' := updateAssoc props "updated_at" (Val.str now)
  let g' : Graph :=
    { g with nodes := g.nodes.map (fun n =>
        if nodeHasLabel n lbl && n.name == name then setNodeProps n props' else n) }
  (g', { nodes_updated := 1, properties_set := props'.length, status := "updated" })

/-- `_rename_node`: a same-name request is an immediate `no_op`;
otherwise the source must exist and the target name must be free
within the label before
`MATCH (n:lbl {name: $old}) SET n.name = $new, n.updated_at = $ts` runs. -/
def _rename_node (g : Graph) (old_name lbl new_name : String) (now : String) :
    Graph × Except OErr UpdateResult :=
  if old_name == new_name then
    (g, Except.ok { status := "no_op" })
  else
    match get_existing_node g old_name (some lbl) with
    | none => (g, Except.error (OErr.renameSourceMissing old_name lbl))
    | some _ =>
      if check_name_exists g new_name (some lbl) then
        (g, Except.error (OErr.renameConflict new_name lbl))
      else
        let g' : Graph :=
          { g with nodes := g.nodes.map (fun n =>
              if nodeHasLabel n lbl && n.name == old_name then
                { n with name := new_name
                         props := updateAssoc n.props "updated_at" (Val.str now) }
              else n) }
        (g', Except.ok { nodes_updated := 1, properties_set := 1, status := "renamed" })

/-!  ## ObjectProperty helpers -/

/-- An ObjectProperty value fans out to a list of targets: a Python
list as-is, anything else as a singleton. -/
def targetValsOf (v : Val) : List Val :=
  match v with
  | Val.strList ss => ss.map Val.str
  | x => [x]

/-- The `(property, target)` pairs whose target is not an existing
`Instance` node, in iteration order. -/
def missingTargetPairs (g : Graph) (object_properties : List (String × Val)) :
    List (String × Val) :=
  object_properties.flatMap (fun pv =>
    (targetValsOf pv.2).filterMap (fun t =>
      if check_name_exists_val g t (some "Instance") then none else some (pv.1, t)))

/-- `_validate_object_property_targets`: collect every missing
`(property, target)` pair and raise listing all of them at once. -/
def _validate_object_property_targets (g : Graph)
    (object_properties : List (String × Val)) : Except OErr Unit :=
  let missing := missingTargetPairs g object_properties
  if missing.isEmpty then Except.ok ()
  else Except.error (OErr.missingTargets missing)

/-- Relationship-type sanitisation:
`prop_name.upper().replace(" ", "_").replace("-", "_")`. -/
def sanitizeRelType (prop_name : String) : String :=
  (prop_name.toUpper.replace " " "_").replace "-" "_"

/-- Per-target outcome row of `_create_object_property_relationships`
(the `error` key of the source's failure branch never arises in this
model, where store calls cannot throw). -/
structure ObjRelResult where
  property : String
  target : Val
  relationship_type : String
  success : Bool
  status : String
  relationships_created : Nat
  warning : Option String := none
  deriving Repr, BEq, DecidableEq

/-- `_create_object_property_relationships`: one
`create_relationship` per (property, target), collecting per-target
results and statuses. -/
def _create_object_property_relationships (g : Graph) (now instance_name : String)
    (object_properties : List (String × Val)) : Graph × List ObjRelResult :=
  let items := object_properties.flatMap (fun pv =>
    (targetValsOf pv.2).map (fun t => (pv.1, t)))
  items.foldl
    (fun acc it =>
      let rel_type := sanitizeRelType it.1
      let rel_properties := [("property_name", Val.str it.1),
        ("property_type", Val.str "ObjectProperty"), ("created_at", Val.str now)]
      let step := create_relationship acc.1
        { label := some "Instance", name := Val.str instance_name }
        { label := some "Instance", name := it.2 } rel_type rel_properties
      let res : ObjRelResult :=
        if was_skipped_due_to_constraint step.2 then
          { property := it.1, target := it.2, relationship_type := rel_type,
            success := true, status := "already_exists", relationships_created := 0,
            warning := step.2.warning }
        else
          { property := it.1, target := it.2, relationship_type := rel_type,
            success := true, status := "created",
            relationships_created := step.2.relationships_created }
      (step.1, acc.2 ++ [res]))
    (g, [])

/-- Does an edge match the per-property delete query of
`_replace_object_property_relationships`
(`MATCH (:Instance {name: $from})-[r:REL]->(:Instance) DELETE r`)? -/
def edgeMatchesReplaceDelete (g : Graph) (instance_name rel_type : String) (e : Edge) : Bool :=
  e.typ == rel_type &&
  (match findNode g e.src with
   | some n => nodeHasLabel n "Instance" && n.name == instance_name
   | none => false) &&
  (match findNode g e.dst with
   | some n => nodeHasLabel n "Instance"
   | none => false)

/-- `_replace_object_property_relationships`: for each property drop
every outgoing edge of its relationship type, then recreate edges to
the provided targets. -/
def _replace_object_property_relationships (g : Graph) (now instance_name : String)
    (object_properties : List (String × Val)) : Graph × List ObjRelResult :=
  let g1 := object_properties.foldl
    (fun gacc pv =>
      let rel_type := sanitizeRelType pv.1
      { gacc with edges :=
          gacc.edges.filter (fun e => !edgeMatchesReplaceDelete gacc instance_name rel_type e) })
    g
  _create_object_property_relationships g1 now instance_name object_properties

/-!  ## Cascading delete: `delete_object_by_name` -/

/-- Nodes matching `(o:Instance {name: $name, instance_of: 'Object'})`. -/
def objectMatches (g : Graph) (object_name : String) : List Node :=
  g.nodes.filter (fun o => nodeHasLabel o "Instance" && o.name == object_name &&
    nodeProp o "instance_of" == some (Val.str "Object"))

/-- Nodes matching
`(o)<-[:ISOBJECTFIELDOF]-(f:Instance {instance_of: 'ObjectField'})`. -/
def objectFieldsOf (g : Graph) (o : Node) : List Node :=
  g.nodes.filter (fun f => nodeHasLabel f "Instance" &&
    nodeProp f "instance_of" == some (Val.str "ObjectField") &&
    g.edges.any (fun e => e.typ == "ISOBJECTFIELDOF" && e.src == f.nid && e.dst == o.nid))

/-- Result dict of `delete_object_by_name`. -/
structure ObjectDeleteResult where
  name : String
  objects_count : Nat
  fields_count : Nat
  nodes_deleted : Nat
  relationships_deleted : Nat
  status : String
  deriving Repr, BEq, DecidableEq

/-- `delete_object_by_name`: existence probe, pre-count of the
distinct linked `ObjectField` nodes, then one
`DETACH DELETE f, o` write removing the matched Object nodes, the
matched field nodes and every edge incident to a removed node. -/
def delete_object_by_name (g : Graph) (object_name : String) (fail_if_not_found : Bool) :
    Graph × Except OErr ObjectDeleteResult :=
  let objs := objectMatches g object_name
  if objs.isEmpty then
    if fail_if_not_found then (g, Except.error (OErr.objectNotFound object_name))
    else
      (g, Except.ok { name := object_name, objects_count := 0, fields_count := 0,
                      nodes_deleted := 0, relationships_deleted := 0, status := "not_found" })
  else
    let fields := (objs.flatMap (fun o => objectFieldsOf g o)).dedup
    let fields_count := fields.length
    let deletedIds := ((objs ++ fields).map (fun n => n.nid)).dedup
    let keptNodes := g.nodes.filter (fun n => !deletedIds.contains n.nid)
    let keptEdges := g.edges.filter (fun e =>
      !(deletedIds.contains e.src || deletedIds.contains e.dst))
    ({ nodes := keptNodes, edges := keptEdges },
     Except.ok { name := object_name, objects_count := 1, fields_count := fields_count,
                 nodes_deleted := g.nodes.length - keptNodes.length,
                 relationships_deleted := g.edges.length - keptEdges.length,
                 status := "deleted" })

/-!  ## InstanceLifecycleManager: `create_instance_node` -/

/-- `properties.get("name")` when it is a string: a requested rename /
final-name override. -/
def requestedNewName (properties : List (String × Val)) : Option String :=
  match lookupAssoc properties "name" with
  | some (Val.str s) => some s
  | _ => none

/-- Python truthiness of an optional string (both `None` and `""` are
falsy). -/
def strTruthy (o : Option String) : Bool :=
  match o with
  | some s => s != ""
  | none => false

/-- How an optional label renders inside an f-string query: `None`
becomes the literal label `None`. -/
def labelStr (o : Option String) : String :=
  match o with
  | some l => l
  | none => "None"

/-- The concept-resolution step of `create_instance_node`: when the
classification edge is requested, auto-detect the concept label if
none (or an empty one) was given, then require the concept node to
exist. -/
def resolveConceptLabel (g : Graph) (priority : List String) (auto_rel : Bool)
    (concept_type : String) (concept_label : Option String) :
    Except OErr (Option String) :=
  if auto_rel then
    let lblE : Except OErr String :=
      match concept_label with
      | some l => if l == "" then auto_detect_domain_label g priority concept_type
                  else Except.ok l
      | none => auto_detect_domain_label g priority concept_type
    match lblE with
    | Except.error e => Except.error e
    | Except.ok l =>
      match get_existing_node g concept_type (some l) with
      | none => Except.error (OErr.missingConcept concept_type l)
      | some _ => Except.ok (some l)
  else Except.ok concept_label

/-- The Data/Object property split of `create_instance_node`
(`name` excluded from typed handling), returning
`(data_properties, object_properties)`. -/
def splitProperties (g : Graph) (properties : List (String × Val)) :
    List (String × Val) × List (String × Val) :=
  let property_names := (properties.map (fun kv => kv.1)).filter (fun p => p != "name")
  let ptypes := (identify_property_types g property_names).1
  (properties.filter (fun kv => kv.1 != "name" && !isObjectPropertyIn ptypes kv.1),
   properties.filter (fun kv => kv.1 != "name" && isObjectPropertyIn ptypes kv.1))

/-- Overall result dict of `create_instance_node`; keys that only some
branches set are optional. -/
structure InstanceResult where
  records : List Node := []
  nodes_created : Nat := 0
  nodes_updated : Nat := 0
  properties_set : Nat := 0
  relationships_created : Nat := 0
  status : Option String := none
  auto_relationship_created : Option Bool := none
  object_property_relationships : Option (List ObjRelResult) := none
  object_properties_created : Option Nat := none
  object_properties_failed : Option Nat := none
  total_operations : Option Nat := none
  deriving Repr, BEq, DecidableEq

/-- The update branch of `create_instance_node` (instance exists and
`allow_update` with properties): re-validate against the merged
property view, optionally rename, update data properties in place and
fully replace the ObjectProperty edges. -/
def updateExistingInstance (g : Graph) (now instance_name concept_type : String)
    (clabel : Option String) (validate_required : Bool) (existing_node : Node)
    (properties data_properties object_properties : List (String × Val))
    (requested_new_name : Option String) (auto_obj : Bool) :
    Graph × Except OErr InstanceResult :=
  let vstep : Except OErr Unit :=
    if validate_required then
      let existing_props := updateAll (nodeAsDict existing_node)
        (properties.filter (fun kv => kv.1 != "name"))
      match validate_instance_properties g concept_type existing_props (labelStr clabel) true with
      | Except.error e => Except.error e
      | Except.ok _ => Except.ok ()
    else Except.ok ()
  match vstep with
  | Except.error e => (g, Except.error e)
  | Except.ok _ =>
    let renameStep : Graph × Except OErr Unit × String :=
      if strTruthy requested_new_name && requested_new_name != some instance_name then
        let nn := requested_new_name.getD ""
        match _rename_node g instance_name "Instance" nn now with
        | (g1, Except.error e) => (g1, Except.error e, instance_name)
        | (g1, Except.ok _) => (g1, Except.ok (), nn)
      else (g, Except.ok (), instance_name)
    match renameStep with
    | (g1, Except.error e, _) => (g1, Except.error e)
    | (g1, Except.ok _, current_name) =>
      let upd := _update_node g1 current_name "Instance" data_properties now
      let res : InstanceResult :=
        { nodes_updated := upd.2.nodes_updated, properties_set := upd.2.properties_set,
          status := some upd.2.status }
      if auto_obj && !object_properties.isEmpty then
        let rep := _replace_object_property_relationships upd.1 now current_name object_properties
        (rep.1, Except.ok { res with object_property_relationships := some rep.2 })
      else (upd.1, Except.ok res)

/-- The creation branch of `create_instance_node` (instance absent):
merge-create the node, best-effort add the `IS_INSTANCE_OF` edge and
the ObjectProperty edges, and total up the operations. -/
def createNewInstance (g : Graph) (now instance_name concept_type : String)
    (clabel : Option String) (additional_labels : List String)
    (data_properties object_properties : List (String × Val))
    (requested_new_name : Option String) (auto_rel auto_obj : Bool) :
    Graph × Except OErr InstanceResult :=
  let final_instance_name :=
    match requested_new_name with
    | some s => if s != "" then s else instance_name
    | none => instance_name
  let node_properties := _add_common_properties
    (updateAll [("name", Val.str final_instance_name), ("instance_of", Val.str concept_type)]
      data_properties) now
  let mstep := _create_node_with_merge g "Instance" final_instance_name node_properties
    additional_labels
  let base : InstanceResult :=
    { nodes_created := mstep.2.nodes_created, properties_set := mstep.2.properties_set }
  let relStep : Graph × InstanceResult :=
    if auto_rel then
      let r := create_relationship mstep.1
        { label := some "Instance", name := Val.str final_instance_name }
        { label := some (labelStr clabel), name := Val.str concept_type }
        "IS_INSTANCE_OF" [("created_at", Val.str now)]
      (r.1, { base with auto_relationship_created := some true
                        relationships_created := r.2.relationships_created })
    else (mstep.1, { base with auto_relationship_created := some false })
  let objStep : Graph × InstanceResult :=
    if auto_obj && !object_properties.isEmpty then
      let r := _create_object_property_relationships relStep.1 now final_instance_name
        object_properties
      let created := (r.2.filter (fun x => x.success)).length
      let failed := (r.2.filter (fun x => !x.success)).length
      let total_obj := ((r.2.filter (fun x => x.success)).map
        (fun x => x.relationships_created)).sum
      (r.1, { relStep.2 with
                object_property_relationships := some r.2
                object_properties_created := some created
                object_properties_failed := some failed
                relationships_created := relStep.2.relationships_created + total_obj })
    else (relStep.1, { relStep.2 with
                         object_properties_created := some 0
                         object_properties_failed := some 0 })
  let operations := 1 + (if objStep.2.auto_relationship_created == some true then 1 else 0) +
    objStep.2.object_properties_created.getD 0
  (objStep.1, Except.ok { objStep.2 with total_operations := some operations })

/-- `create_instance_node`: concept check, property split, required
validation, ObjectProperty target gate, then either the
already-exists / update handling or fresh creation. -/
def create_instance_node (g : Graph) (priority : List String) (now : String)
    (instance_name concept_type : String) (properties : List (String × Val))
    (additional_labels : List String)
    (allow_update validate_required_properties : Bool) (concept_label : Option String)
    (auto_create_relationship auto_create_object_property_relationships : Bool) :
    Graph × Except OErr InstanceResult :=
  let requested_new_name := requestedNewName properties
  match resolveConceptLabel g priority auto_create_relationship concept_type concept_label with
  | Except.error e => (g, Except.error e)
  | Except.ok clabel =>
    let split := splitProperties g properties
    let data_properties := split.1
    let object_properties := split.2
    let vstep : Except OErr Unit :=
      if validate_required_properties && !properties.isEmpty then
        match validate_instance_properties g concept_type
          (properties.filter (fun kv => kv.1 != "name")) (labelStr clabel) true with
        | Except.error e => Except.error e
        | Except.ok _ => Except.ok ()
      else if validate_required_properties then
        match validate_instance_properties g concept_type [] (labelStr clabel) true with
        | Except.error e => Except.error e
        | Except.ok _ => Except.ok ()
      else Except.ok ()
    match vstep with
    | Except.error e => (g, Except.error e)
    | Except.ok _ =>
      let tstep : Except OErr Unit :=
        if auto_create_object_property_relationships && !object_properties.isEmpty then
          _validate_object_property_targets g object_properties
        else Except.ok ()
      match tstep with
      | Except.error e => (g, Except.error e)
      | Except.ok _ =>
        match get_existing_node g instance_name (some "Instance") with
        | some existing_node =>
          if allow_update && !properties.isEmpty then
            updateExistingInstance g now instance_name concept_type clabel
              validate_required_properties existing_node properties data_properties
              object_properties requested_new_name
              auto_create_object_property_relationships
          else
            if strTruthy requested_new_name && requested_new_name != some instance_name then
              (g, Except.error (OErr.renameNotAllowed instance_name
                (requested_new_name.getD "")))
            else
              (g, Except.ok { records := [existing_node], status := some "already_exists",
                              auto_relationship_created := some false })
        | none =>
          createNewInstance g now instance_name concept_type clabel additional_labels
            data_properties object_properties requested_new_name
            auto_create_relationship auto_create_object_property_relationships

/-!  ## Concrete example inputs (used by witnesses and counterexamples) -/

/-- Shorthand for an `Instance`-labelled node. -/
def nInst (i : Nat) (nm : String) (ps : List (String × Val)) : Node :=
  { nid := i, labels := ["Instance"], name := nm, props := ps }

/-- A one-node graph holding a `Class` named `Table`. -/
def exNodeTable : Node := { nid := 1, labels := ["Class"], name := "Table", props := [] }

def gOne : Graph := { nodes := [exNodeTable], edges := [] }

/-- Two nodes named `dup` under different labels. -/
def gTwo : Graph :=
  { nodes := [{ nid := 1, labels := ["Class"], name := "dup", props := [] },
              { nid := 2, labels := ["Instance"], name := "dup", props := [] }],
    edges := [] }

/-- Two unconnected `Instance` nodes `s` and `t`. -/
def gRel : Graph := { nodes := [nInst 1 "s" [], nInst 2 "t" []], edges := [] }

def patS : NodePat := { label := some "Instance", name := Val.str "s" }

def patT : NodePat := { label := some "Instance", name := Val.str "t" }

/-- A `Property` node with an empty name, classified `ObjectProperty`. -/
def gEmptyName : Graph :=
  { nodes := [{ nid := 1, labels := ["Property"], name := "",
                props := [("property_type", Val.str "ObjectProperty")] }],
    edges := [] }

/-- The `likes` Property node, classified `ObjectProperty`. -/
def exNodeLikes : Node :=
  { nid := 1, labels := ["Property"], name := "likes",
    props := [("property_type", Val.str "ObjectProperty")] }

/-- Two `Property` nodes `likes` (ObjectProperty) and `age` (DataProperty). -/
def gProps : Graph :=
  { nodes := [exNodeLikes,
              { nid := 2, labels := ["Property"], name := "age",
                props := [("property_type", Val.str "DataProperty")] }],
    edges := [] }

/-- Concept `C` subclass of `A`; required property `X` declared
directly on `C` and also on the ancestor `A`. -/
def gInh : Graph :=
  { nodes := [
      { nid := 1, labels := ["Class"], name := "C", props := [] },
      { nid := 2, labels := ["Class"], name := "A", props := [] },
      { nid := 3, labels := ["Property"], name := "X",
        props := [("property_type", Val.str "DataProperty")] }],
    edges := [
      { src := 1, dst := 2, typ := "SUBCLASS_OF", props := [] },
      { src := 1, dst := 3, typ := "HAS_PROPERTY", props := [("required", Val.bool true)] },
      { src := 2, dst := 3, typ := "HAS_PROPERTY",
        props := [("required", Val.bool true), ("default_value", Val.str "dA")] }] }

/-- Concept `V` requiring properties `a`, `b`, `c`. -/
def gVal : Graph :=
  { nodes := [
      { nid := 1, labels := ["Class"], name := "V", props := [] },
      { nid := 2, labels := ["Property"], name := "a", props := [] },
      { nid := 3, labels := ["Property"], name := "b", props := [] },
      { nid := 4, labels := ["Property"], name := "c", props := [("comment", Val.str "cc")] }],
    edges := [
      { src := 1, dst := 2, typ := "HAS_PROPERTY", props := [("required", Val.bool true)] },
      { src := 1, dst := 3, typ := "HAS_PROPERTY", props := [("required", Val.bool true)] },
      { src := 1, dst := 4, typ := "HAS_PROPERTY",
        props := [("required", Val.bool true), ("default_value", Val.int 7)] }] }

/-- A graph declaring ObjectProperty `likes` but holding no Instance
nodes, so any `likes` target is missing. -/
def gTargets : Graph :=
  { nodes := [{ nid := 1, labels := ["Property"], name := "likes",
                props := [("property_type", Val.str "ObjectProperty")] }],
    edges := [] }

/-- An existing Instance `t1`. -/
def exNodeT1 : Node := nInst 7 "t1" [("instance_of", Val.str "Table")]

def gExisting : Graph := { nodes := [exNodeT1], edges := [] }

/-- An `Object` Instance `obj1` with three linked `ObjectField`
Instances and one unrelated neighbour. -/
def exNodeObj : Node := nInst 1 "obj1" [("instance_of", Val.str "Object")]

def gObj : Graph :=
  { nodes := [exNodeObj,
      nInst 2 "f1" [("instance_of", Val.str "ObjectField")],
      nInst 3 "f2" [("instance_of", Val.str "ObjectField")],
      nInst 4 "f3" [("instance_of", Val.str "ObjectField")],
      nInst 5 "other" []],
    edges := [
      { src := 2, dst := 1, typ := "ISOBJECTFIELDOF", props := [] },
      { src := 3, dst := 1, typ := "ISOBJECTFIELDOF", props := [] },
      { src := 4, dst := 1, typ := "ISOBJECTFIELDOF", props := [] },
      { src := 5, dst := 1, typ := "LIKES", props := [] }] }

/-- Two `Instance` nodes `x` and `y` (rename scenarios). -/
def gRen : Graph := { nodes := [nInst 1 "x" [], nInst 2 "y" []], edges := [] }

/-- The three required-property rows of concept `V` (as returned by
`get_required_properties_for_concept gVal "Class" "V" true`). -/
def rowA : PropRow :=
  { property_name := "a", property_type := none, range_type := none, comment := none,
    tag := none, required := true, default_value := none, inheritance_type := "direct",
    source_concept := "V" }

def rowB : PropRow :=
  { property_name := "b", property_type := none, range_type := none, comment := none,
    tag := none, required := true, default_value := none, inheritance_type := "direct",
    source_concept := "V" }

def rowC : PropRow :=
  { property_name := "c", property_type := none, range_type := none,
    comment := some (Val.str "cc"), tag := none, required := true,
    default_value := some (Val.int 7), inheritance_type := "direct",
    source_concept := "V" }

/-- The direct required-property row of concept `C` for `X` in `gInh`. -/
def rowX : PropRow :=
  { property_name := "X", property_type := some (Val.str "DataProperty"), range_type := none,
    comment := none, tag := none, required := true, default_value := none,
    inheritance_type := "direct", source_concept := "C" }

/-!  ## General association-list lemmas -/

theorem lookupAssoc_nil {α : Type} (k : String) :
    lookupAssoc ([] : List (String × α)) k = none := rfl

theorem lookupAssoc_cons {α : Type} (kv : String × α) (t : List (String × α)) (k : String) :
    lookupAssoc (kv :: t) k = if kv.1 == k then some kv.2 else lookupAssoc t k := by
  by_cases h : kv.1 == k <;> simp [lookupAssoc, List.find?_cons, h]

theorem lookupAssoc_append {α : Type} (m m' : List (String × α)) (k : String) :
    lookupAssoc (m ++ m') k = (lookupAssoc m k).or (lookupAssoc m' k) := by
  induction m with
  | nil => simp [lookupAssoc_nil]
  | cons kv t ih =>
      by_cases h : kv.1 == k <;> simp [lookupAssoc_cons, h, ih]

theorem lookupAssoc_updateAssoc_self {α : Type} (m : List (String × α)) (k : String) (v : α) :
    lookupAssoc (updateAssoc m k v) k = some v := by
  induction m with
  | nil => simp [updateAssoc, lookupAssoc_cons]
  | cons kv t ih =>
      by_cases h : kv.1 == k <;> simp [updateAssoc, h, lookupAssoc_cons, ih]

theorem lookupAssoc_updateAssoc_ne {α : Type} (m : List (String × α)) (k k' : String) (v : α)
    (h : (k' == k) = false) :
    lookupAssoc (updateAssoc m k v) k' = lookupAssoc m k' := by
  induction m with
  | nil =>
      have h2 : (k == k') = false := by
        simp only [beq_eq_false_iff_ne] at h ⊢
        exact fun hk => h hk.symm
      simp [updateAssoc, lookupAssoc_cons, lookupAssoc_nil, h2]
  | cons kv t ih =>
      by_cases hk : kv.1 == k
      · have hkk : kv.1 = k := by simpa [beq_iff_eq] using hk
        have h2 : (k == k') = false := by
          simp only [beq_eq_false_iff_ne] at h ⊢
          exact fun hx => h hx.symm
        simp [updateAssoc, hk, lookupAssoc_cons, h2, hkk]
      · simp [updateAssoc, hk, lookupAssoc_cons, ih]

/-- A key is present exactly when lookup succeeds. -/
theorem hasKey_iff_lookupAssoc_isSome {α : Type} (m : List (String × α)) (k : String) :
    m.any (fun kv => kv.1 == k) = true ↔ (lookupAssoc m k).isSome := by
  induction m with
  | nil => simp [lookupAssoc_nil]
  | cons kv t ih =>
      by_cases h : kv.1 == k <;> simp [lookupAssoc_cons, h, ih]

theorem mem_key_iff_lookupAssoc_isSome {α : Type} (m : List (String × α)) (k : String) :
    (∃ kv ∈ m, kv.1 = k) ↔ (lookupAssoc m k).isSome := by
  rw [← hasKey_iff_lookupAssoc_isSome]
  simp [List.any_eq_true, beq_iff_eq]

theorem updateAssoc_eq_self {α : Type} (m : List (String × α)) (k : String) (v : α)
    (hall : ∀ kv ∈ m, kv.2 = v) (hmem : m.any (fun kv => kv.1 == k) = true) :
    updateAssoc m k v = m := by
  induction m with
  | nil => simp at hmem
  | cons kv t ih =>
      by_cases h : kv.1 == k
      · have h1 : kv.1 = k := by simpa [beq_iff_eq] using h
        have h2 : kv.2 = v := hall kv (List.mem_cons_self kv t)
        simp [updateAssoc, h, ← h1, ← h2]
      · have hmem' : t.any (fun kv => kv.1 == k) = true := by
          simpa [List.any_cons, h] using hmem
        have hall' : ∀ kv ∈ t, kv.2 = v := fun x hx => hall x (List.mem_cons_of_mem kv hx)
        simp [updateAssoc, h, ih hall' hmem']

theorem updateAssoc_eq_append {α : Type} (m : List (String × α)) (k : String) (v : α)
    (h : m.any (fun kv => kv.1 == k) = false) :
    updateAssoc m k v = m ++ [(k, v)] := by
  induction m with
  | nil => rfl
  | cons kv t ih =>
      have h1 : (kv.1 == k) = false := by
        by_contra hc
        simp only [Bool.not_eq_false] at hc
        simp [List.any_cons, hc] at h
      have h2 : t.any (fun kv => kv.1 == k) = false := by
        simpa [List.any_cons, h1] using h
      simp [updateAssoc, h1, ih h2]

theorem updateAssoc_allvals {α : Type} (m : List (String × α)) (k : String) (v : α)
    (hall : ∀ kv ∈ m, kv.2 = v) :
    ∀ kv ∈ updateAssoc m k v, kv.2 = v := by
  induction m with
  | nil => intro kv hkv; simp [updateAssoc] at hkv; simp [hkv]
  | cons hd t ih =>
      intro kv hkv
      by_cases h : hd.1 == k
      · simp only [updateAssoc, h, if_pos] at hkv
        rcases List.mem_cons.mp hkv with h1 | h1
        · simp [h1]
        · exact hall kv (List.mem_cons_of_mem hd h1)
      · simp only [updateAssoc, h, if_neg, Bool.false_eq_true, not_false_iff] at hkv
        rcases List.mem_cons.mp hkv with h1 | h1
        · exact hall kv (h1 ▸ List.mem_cons_self hd t)
        · exact ih (fun x hx => hall x (List.mem_cons_of_mem hd hx)) kv h1

/-- Every value in the failure-path dict comprehension is the default. -/
theorem defaultDict_allvals {α : Type} (names : List String) (d : α) :
    ∀ acc : List (String × α), (∀ kv ∈ acc, kv.2 = d) →
      ∀ kv ∈ names.foldl (fun m n => updateAssoc m n d) acc, kv.2 = d := by
  induction names with
  | nil => intro acc hacc; simpa using hacc
  | cons x ns ih =>
      intro acc hacc
      exact ih (updateAssoc acc x d) (updateAssoc_allvals acc x d hacc)

/-- Lookup in the failure-path dict comprehension. -/
theorem defaultDict_lookup {α : Type} (names : List String) (d : α) (k : String) :
    ∀ acc : List (String × α),
      lookupAssoc (names.foldl (fun m n => updateAssoc m n d) acc) k =
        if k ∈ names then some d else lookupAssoc acc k := by
  induction names with
  | nil => intro acc; simp
  | cons x ns ih =>
      intro acc
      rw [List.foldl_cons, ih]
      by_cases hns : k ∈ ns
      · simp [hns, List.mem_cons]
      · by_cases hx : k = x
        · simp [hns, hx, List.mem_cons, lookupAssoc_updateAssoc_self]
        · have hb : (k == x) = false := by simpa [beq_eq_false_iff_ne] using hx
          simp [hns, hx, List.mem_cons, lookupAssoc_updateAssoc_ne _ _ _ _ hb]

/-- The failure-path dict comprehension agrees with the skip-or-append
fill loop of the success path (the two ways the source defaults a name
to `DataProperty`). -/
theorem defaultDict_eq_fillFold {α : Type} (names : List String) (d : α) :
    ∀ acc : List (String × α), (∀ kv ∈ acc, kv.2 = d) →
      names.foldl (fun m n => updateAssoc m n d) acc =
        names.foldl (fun m n => if m.any (fun kv => kv.1 == n) then m else m ++ [(n, d)]) acc := by
  induction names with
  | nil => intro acc _; rfl
  | cons x ns ih =>
      intro acc hacc
      by_cases hx : acc.any (fun kv => kv.1 == x) = true
      · rw [List.foldl_cons, List.foldl_cons, updateAssoc_eq_self acc x d hacc hx, hx, if_pos rfl]
        exact ih acc hacc
      · have hfalse : acc.any (fun kv => kv.1 == x) = false := by
          rcases Bool.eq_false_or_eq_true (acc.any (fun kv => kv.1 == x)) with h2 | h2
          · exact absurd h2 hx
          · exact h2
        rw [List.foldl_cons, List.foldl_cons, updateAssoc_eq_append acc x d hfalse, hfalse]
        have hacc' : ∀ kv ∈ acc ++ [(x, d)], kv.2 = d := by
          intro kv hkv
          rcases List.mem_append.mp hkv with h1 | h1
          · exact hacc kv h1
          · simp at h1; simp [h1]
        simp only [Bool.false_eq_true, if_neg, not_false_iff]
        exact ih (acc ++ [(x, d)]) hacc'

/-- First component of the fill loop of `buildPropertyTypes` (which
also accumulates warnings) is the plain skip-or-append fold. -/
theorem fillPair_fst (names : List String) (d : Option Val) :
    ∀ (m0 : List (String × Option Val)) (w0 : List String),
      (names.foldl
        (fun acc n => if acc.1.any (fun kv => kv.1 == n) then acc
                      else (acc.1 ++ [(n, d)], acc.2 ++ [n])) (m0, w0)).1 =
      names.foldl (fun m n => if m.any (fun kv => kv.1 == n) then m else m ++ [(n, d)]) m0 := by
  induction names with
  | nil => intro m0 w0; rfl
  | cons x ns ih =>
      intro m0 w0
      by_cases hx : m0.any (fun kv => kv.1 == x) = true
      · simp only [List.foldl_cons, hx, if_pos rfl]
        exact ih m0 w0
      · have hfalse : m0.any (fun kv => kv.1 == x) = false := by
          rcases Bool.eq_false_or_eq_true (m0.any (fun kv => kv.1 == x)) with h2 | h2
          · exact absurd h2 hx
          · exact h2
        simp only [List.foldl_cons, hfalse, Bool.false_eq_true, if_neg, not_false_iff]
        exact ih (m0 ++ [(x, d)]) (w0 ++ [x])

/-- Key presence after a dict assignment. -/
theorem hasKey_updateAssoc {α : Type} (m : List (String × α)) (k0 : String) (v : α) (k : String) :
    (updateAssoc m k0 v).any (fun kv => kv.1 == k) =
      (m.any (fun kv => kv.1 == k) || (k0 == k)) := by
  induction m with
  | nil => simp [updateAssoc]
  | cons kv t ih =>
      by_cases h : kv.1 == k0
      · have h1 : kv.1 = k0 := by simpa [beq_iff_eq] using h
        simp [updateAssoc, h, List.any_cons, h1, Bool.or_comm, Bool.or_assoc, Bool.or_left_comm]
      · simp [updateAssoc, h, List.any_cons, ih, Bool.or_assoc]

/-- A key absent from every row is untouched by the row loop of
`buildPropertyTypes`. -/
theorem rowsFold_lookup_of_absent (k : String) :
    ∀ (rows : List (String × Option Val)),
      (∀ row ∈ rows, (row.1 == k) = false) →
      ∀ acc, lookupAssoc (rows.foldl
        (fun acc row => if row.1 != "" then updateAssoc acc row.1 row.2 else acc) acc) k =
        lookupAssoc acc k := by
  intro rows
  induction rows with
  | nil => intro _ acc; rfl
  | cons row t ih =>
      intro h acc
      have hrow : (row.1 == k) = false := h row (List.mem_cons_self row t)
      have ht : ∀ r ∈ t, (r.1 == k) = false := fun r hr => h r (List.mem_cons_of_mem row hr)
      have hkk : (k == row.1) = false := by
        simp only [beq_eq_false_iff_ne] at hrow ⊢
        exact fun hk => hrow hk.symm
      rw [List.foldl_cons]
      by_cases he : (row.1 != "") = true
      · simp only [he, if_pos]
        rw [ih ht]
        exact lookupAssoc_updateAssoc_ne acc row.1 k row.2 hkk
      · simp only [he, if_neg, Bool.false_eq_true, not_false_iff]
        exact ih ht acc

/-- A key present after the row loop of `buildPropertyTypes` comes
from a nonempty row key or from the accumulator. -/
theorem rowsFold_key_source (k : String) :
    ∀ (rows : List (String × Option Val)) (acc : List (String × Option Val)),
      ((rows.foldl
        (fun acc row => if row.1 != "" then updateAssoc acc row.1 row.2 else acc) acc).any
          (fun kv => kv.1 == k)) = true →
      acc.any (fun kv => kv.1 == k) = true ∨ ∃ row ∈ rows, row.1 = k ∧ row.1 ≠ "" := by
  intro rows
  induction rows with
  | nil => intro acc h; exact Or.inl h
  | cons row t ih =>
      intro acc h
      rw [List.foldl_cons] at h
      by_cases he : (row.1 != "") = true
      · simp only [he, if_pos] at h
        rcases ih (updateAssoc acc row.1 row.2) h with h1 | h1
        · rw [hasKey_updateAssoc] at h1
          rcases Bool.or_eq_true_iff.mp h1 with h2 | h2
          · exact Or.inl h2
          · refine Or.inr ⟨row, List.mem_cons_self row t, by simpa [beq_iff_eq] using h2, ?_⟩
            simpa [bne_iff_ne] using he
        · rcases h1 with ⟨r, hr, h2, h3⟩
          exact Or.inr ⟨r, List.mem_cons_of_mem row hr, h2, h3⟩
      · simp only [he, if_neg, Bool.false_eq_true, not_false_iff] at h
        rcases ih acc h with h1 | h1
        · exact Or.inl h1
        · rcases h1 with ⟨r, hr, h2, h3⟩
          exact Or.inr ⟨r, List.mem_cons_of_mem row hr, h2, h3⟩

/-- The row loop records the value of a (nonempty-keyed) row that no
later row shadows. -/
theorem rowsFold_lookup_found (k : String) (v : Option Val) (hk : k ≠ "")
    (pre post : List (String × Option Val)) (acc : List (String × Option Val))
    (hpost : ∀ row ∈ post, (row.1 == k) = false) :
    lookupAssoc ((pre ++ (k, v) :: post).foldl
      (fun acc row => if row.1 != "" then updateAssoc acc row.1 row.2 else acc) acc) k =
      some v := by
  rw [List.foldl_append, List.foldl_cons]
  have he : ((k, v).1 != "") = true := by simpa [bne_iff_ne] using hk
  simp only [he, if_pos]
  rw [rowsFold_lookup_of_absent k post hpost]
  exact lookupAssoc_updateAssoc_self _ k v

/-- Lookup through the fill loop of `buildPropertyTypes`: existing
entries win, every other requested name gets the default. -/
theorem fillPair_lookup (names : List String) (d : Option Val) (k : String) :
    ∀ (m0 : List (String × Option Val)) (w0 : List String),
      lookupAssoc (names.foldl
        (fun acc n => if acc.1.any (fun kv => kv.1 == n) then acc
                      else (acc.1 ++ [(n, d)], acc.2 ++ [n])) (m0, w0)).1 k =
      (lookupAssoc m0 k).or (if k ∈ names then some d else none) := by
  induction names with
  | nil =>
      intro m0 w0
      cases h : lookupAssoc m0 k <;> simp [Option.or, h]
  | cons x ns ih =>
      intro m0 w0
      by_cases hx : m0.any (fun kv => kv.1 == x) = true
      · rw [List.foldl_cons]
        simp only [hx, if_pos]
        rw [ih m0 w0]
        by_cases hkx : k = x
        · have hs : (lookupAssoc m0 k).isSome := by
            rw [← hasKey_iff_lookupAssoc_isSome, hkx]; exact hx
          obtain ⟨v, hv⟩ := Option.isSome_iff_exists.mp hs
          simp [hv, Option.or]
        · simp [List.mem_cons, hkx]
      · have hfalse : m0.any (fun kv => kv.1 == x) = false := by
          rcases Bool.eq_false_or_eq_true (m0.any (fun kv => kv.1 == x)) with h2 | h2
          · exact absurd h2 hx
          · exact h2
        rw [List.foldl_cons]
        simp only [hfalse, Bool.false_eq_true, if_neg, not_false_iff]
        rw [ih (m0 ++ [(x, d)]) (w0 ++ [x]), lookupAssoc_append]
        by_cases hkx : k = x
        · subst hkx
          have hnone : lookupAssoc m0 k = none := by
            rcases hcase : lookupAssoc m0 k with _ | v
            · rfl
            · exfalso
              have : (lookupAssoc m0 k).isSome := by rw [hcase]; rfl
              rw [← hasKey_iff_lookupAssoc_isSome] at this
              rw [this] at hfalse
              exact Bool.true_eq_false.mp hfalse
          simp [hnone, lookupAssoc_cons, Option.or, List.mem_cons]
        · have hb : ((x, d).1 == k) = false := by
            simp only [beq_eq_false_iff_ne]
            exact fun h => hkx h.symm
          have hOne : lookupAssoc [(x, d)] k = none := by
            simp [lookupAssoc_cons, hb, lookupAssoc_nil]
          have hIf : (if k ∈ x :: ns then some d else none) =
              (if k ∈ ns then some d else none) := by
            simp [List.mem_cons, hkx]
          rw [hOne, Option.or_none, hIf]

/-- Warnings already accumulated survive the rest of the fill loop. -/
theorem fillPair_warn_mono (names : List String) (d : Option Val) (n : String) :
    ∀ (m0 : List (String × Option Val)) (w0 : List String), n ∈ w0 →
      n ∈ (names.foldl
        (fun acc x => if acc.1.any (fun kv => kv.1 == x) then acc
                      else (acc.1 ++ [(x, d)], acc.2 ++ [x])) (m0, w0)).2 := by
  induction names with
  | nil => intro _ _ h; exact h
  | cons x ns ih =>
      intro m0 w0 h
      rw [List.foldl_cons]
      by_cases hx : m0.any (fun kv => kv.1 == x) = true
      · simp only [hx, if_pos]
        exact ih m0 w0 h
      · have hfalse : m0.any (fun kv => kv.1 == x) = false := by
          rcases Bool.eq_false_or_eq_true (m0.any (fun kv => kv.1 == x)) with h2 | h2
          · exact absurd h2 hx
          · exact h2
        simp only [hfalse, Bool.false_eq_true, if_neg, not_false_iff]
        exact ih (m0 ++ [(x, d)]) (w0 ++ [x]) (List.mem_append.mpr (Or.inl h))

/-- A requested name with no entry in the map is recorded in the
warning list by the fill loop. -/
theorem fillPair_warn (names : List String) (d : Option Val) (n : String) :
    ∀ (m0 : List (String × Option Val)) (w0 : List String),
      n ∈ names → m0.any (fun kv => kv.1 == n) = false →
      n ∈ (names.foldl
        (fun acc x => if acc.1.any (fun kv => kv.1 == x) then acc
                      else (acc.1 ++ [(x, d)], acc.2 ++ [x])) (m0, w0)).2 := by
  induction names with
  | nil => intro m0 w0 h _; simp at h
  | cons x ns ih =>
      intro m0 w0 hmem habs
      rw [List.foldl_cons]
      by_cases hx : m0.any (fun kv => kv.1 == x) = true
      · simp only [hx, if_pos]
        rcases List.mem_cons.mp hmem with he | hns
        · exfalso
          rw [← he] at hx
          rw [hx] at habs
          exact Bool.true_eq_false.mp habs
        · exact ih m0 w0 hns habs
      · have hfalse : m0.any (fun kv => kv.1 == x) = false := by
          rcases Bool.eq_false_or_eq_true (m0.any (fun kv => kv.1 == x)) with h2 | h2
          · exact absurd h2 hx
          · exact h2
        simp only [hfalse, Bool.false_eq_true, if_neg, not_false_iff]
        rcases List.mem_cons.mp hmem with he | hns
        · subst he
          exact fillPair_warn_mono ns d n (m0 ++ [(n, d)]) (w0 ++ [n]) (by simp)
        · by_cases hxn : x = n
          · subst hxn
            exact fillPair_warn_mono ns d x (m0 ++ [(x, d)]) (w0 ++ [x]) (by simp)
          · have habs' : (m0 ++ [(x, d)]).any (fun kv => kv.1 == n) = false := by
              rw [List.any_append]
              have hb : ((x, d).1 == n) = false := by simpa [beq_eq_false_iff_ne] using hxn
              simp [habs, hb]
            exact ih (m0 ++ [(x, d)]) (w0 ++ [x]) hns habs'

/-- Rows of the classification query expose a Property node bearing
the row's key. -/
theorem mem_propertyTypeRows_iff (g : Graph) (names : List String)
    (row : String × Option Val) :
    row ∈ propertyTypeRows g names ↔
      ∃ p ∈ g.nodes, nodeHasLabel p "Property" = true ∧ p.name ∈ names ∧
        row = (p.name, nodeProp p "property_type") := by
  constructor
  · intro h
    rcases List.mem_map.mp h with ⟨p, hp, hrow⟩
    rcases List.mem_filter.mp hp with ⟨hmem, hpred⟩
    rw [Bool.and_eq_true] at hpred
    exact ⟨p, hmem, hpred.1, by simpa using hpred.2, hrow.symm⟩
  · intro ⟨p, hmem, hlab, hcont, hrow⟩
    refine List.mem_map.mpr ⟨p, List.mem_filter.mpr ⟨hmem, ?_⟩, hrow.symm⟩
    rw [Bool.and_eq_true]
    exact ⟨hlab, by simpa using hcont⟩

/-!  ## Claim C10 -/

/-- C10: when the store query inside `_identify_property_types`
raises, the exception is swallowed: the call still returns a mapping
classifying every requested name as `DataProperty`, identical to the
mapping computed against a store holding no Property nodes, so a
caller cannot distinguish a failed lookup from a schema in which none
of the names are declared Properties. -/
theorem identify_property_types_swallows_store_failure (e : String) (names : List String) :
    ((identify_property_types_from (Except.error e) names).1 =
      (identify_property_types { nodes := [], edges := [] } names).1) ∧
    (∀ kv ∈ (identify_property_types_from (Except.error e) names).1,
      kv.2 = some (Val.str "DataProperty")) ∧
    (∀ n ∈ names, lookupAssoc (identify_property_types_from (Except.error e) names).1 n =
      some (some (Val.str "DataProperty"))) := by
  cases names with
  | nil =>
      refine ⟨rfl, ?_, ?_⟩
      · intro kv h
        simp [identify_property_types_from] at h
      · intro n h
        simp at h
  | cons x xs =>
      have hred : (identify_property_types_from (Except.error e) (x :: xs)).1 =
          (x :: xs).foldl (fun m n => updateAssoc m n (some (Val.str "DataProperty"))) [] := rfl
      have hrhs : (identify_property_types { nodes := [], edges := [] } (x :: xs)).1 =
          (x :: xs).foldl
            (fun m n => if m.any (fun kv => kv.1 == n) then m
                        else m ++ [(n, some (Val.str "DataProperty"))]) [] := by
        show ((x :: xs).foldl
          (fun acc n => if acc.1.any (fun kv => kv.1 == n) then acc
            else (acc.1 ++ [(n, some (Val.str "DataProperty"))], acc.2 ++ [n])) ([], [])).1 = _
        exact fillPair_fst (x :: xs) (some (Val.str "DataProperty")) [] []
      refine ⟨?_, ?_, ?_⟩
      · rw [hred, hrhs]
        exact defaultDict_eq_fillFold (x :: xs) (some (Val.str "DataProperty")) []
          (by intro kv h; simp at h)
      · intro kv hkv
        rw [hred] at hkv
        exact defaultDict_allvals (x :: xs) (some (Val.str "DataProperty")) []
          (by intro kv h; simp at h) kv hkv
      · intro n hn
        rw [hred, defaultDict_lookup]
        simp [hn]

/-- Witness for C10 at a concrete failing query. -/
theorem identify_property_types_swallows_store_failure_witness :
    lookupAssoc (identify_property_types_from
      (Except.error "boom") ["likes", "age"]).1 "likes" =
      some (some (Val.str "DataProperty")) :=
  (identify_property_types_swallows_store_failure "boom" ["likes", "age"]).2.2 "likes"
    (by decide)

/-!  ## Claim C9 -/

/-- C9 counterexample: a Property node with the empty name, classified
`ObjectProperty`, is matched by the classification query but dropped
by the truthiness guard `if prop_name:`, so its name maps to
`DataProperty` in spite of the matching Property node. -/
theorem identify_property_types_empty_name_counterexample :
    propertyTypeRows gEmptyName [""] = [("", some (Val.str "ObjectProperty"))] ∧
    (identify_property_types gEmptyName [""]).1 = [("", some (Val.str "DataProperty"))] :=
  ⟨rfl, rfl⟩

/-- C9 (amended): with at most one Property node per name, the
classification mapping has exactly the input names as keys; each
nonempty name matching a Property node gets that node's
`property_type`, and every other name (no matching Property node, or
the empty name) is mapped to `DataProperty` with a recorded warning. -/
theorem identify_property_types_classification (g : Graph) (names : List String)
    (hnodup : ((propertyTypeRows g names).map Prod.fst).Nodup) :
    (∀ s, (∃ kv ∈ (identify_property_types g names).1, kv.1 = s) ↔ s ∈ names) ∧
    (∀ p ∈ g.nodes, nodeHasLabel p "Property" = true → p.name ∈ names → p.name ≠ "" →
      lookupAssoc (identify_property_types g names).1 p.name =
        some (nodeProp p "property_type")) ∧
    (∀ n ∈ names,
      (n = "" ∨ ∀ p ∈ g.nodes, nodeHasLabel p "Property" = true → p.name ≠ n) →
      lookupAssoc (identify_property_types g names).1 n =
        some (some (Val.str "DataProperty")) ∧
      n ∈ (identify_property_types g names).2) := by
  cases names with
  | nil =>
      refine ⟨?_, ?_, ?_⟩
      · intro s
        constructor
        · intro ⟨kv, hkv, _⟩
          simp [identify_property_types, identify_property_types_from] at hkv
        · intro h
          simp at h
      · intro p _ _ h
        simp at h
      · intro n h
        simp at h
  | cons x xs =>
      set names := x :: xs with hnames
      set d := some (Val.str "DataProperty") with hd
      set rows := propertyTypeRows g names with hrows
      set FR := rows.foldl
        (fun acc row => if row.1 != "" then updateAssoc acc row.1 row.2 else acc) [] with hFR
      have hmain : identify_property_types g names =
          names.foldl
            (fun acc n => if acc.1.any (fun kv => kv.1 == n) then acc
              else (acc.1 ++ [(n, d)], acc.2 ++ [n])) (FR, []) := rfl
      have hlook : ∀ k, lookupAssoc (identify_property_types g names).1 k =
          (lookupAssoc FR k).or (if k ∈ names then some d else none) := by
        intro k
        rw [hmain]
        exact fillPair_lookup names d k FR []
      have hFRkey : ∀ k, (lookupAssoc FR k).isSome →
          ∃ p ∈ g.nodes, nodeHasLabel p "Property" = true ∧ p.name ∈ names ∧
            p.name = k ∧ k ≠ "" := by
        intro k hk
        rw [← hasKey_iff_lookupAssoc_isSome] at hk
        rcases rowsFold_key_source k rows [] hk with h1 | h1
        · simp at h1
        · rcases h1 with ⟨row, hrow, hk1, hk2⟩
          rcases (mem_propertyTypeRows_iff g names row).mp hrow with ⟨p, hp, hlab, hmem, hform⟩
          have hpn : p.name = k := by rw [hform] at hk1; exact hk1
          refine ⟨p, hp, hlab, hmem, hpn, ?_⟩
          rw [hform] at hk2
          simpa [hpn] using hk2
      refine ⟨?_, ?_, ?_⟩
      · intro s
        constructor
        · intro hex
          have hs : (lookupAssoc (identify_property_types g names).1 s).isSome :=
            (mem_key_iff_lookupAssoc_isSome _ s).mp hex
          rw [hlook s] at hs
          rcases hcase : lookupAssoc FR s with _ | v
          · rw [hcase] at hs
            by_cases hmem : s ∈ names
            · exact hmem
            · simp [hmem, Option.or] at hs
          · have : (lookupAssoc FR s).isSome := by rw [hcase]; rfl
            rcases hFRkey s this with ⟨p, _, _, hmem, hpn, _⟩
            rw [← hpn]
            exact hmem
        · intro hmem
          apply (mem_key_iff_lookupAssoc_isSome _ s).mpr
          rw [hlook s]
          rcases hcase : lookupAssoc FR s with _ | v <;> simp [hcase, Option.or, hmem]
      · intro p hp hlab hmem hne
        have hrowmem : (p.name, nodeProp p "property_type") ∈ rows :=
          (mem_propertyTypeRows_iff g names _).mpr ⟨p, hp, hlab, hmem, rfl⟩
        rcases List.append_of_mem hrowmem with ⟨pre, post, hsplit⟩
        have hpost : ∀ row ∈ post, (row.1 == p.name) = false := by
          intro row hrowpost
          have hnd := hnodup
          rw [hsplit, List.map_append, List.map_cons] at hnd
          have hsub : (p.name :: post.map Prod.fst).Sublist
              (pre.map Prod.fst ++ p.name :: post.map Prod.fst) :=
            List.sublist_append_right _ _
          have hnd2 : (p.name :: post.map Prod.fst).Nodup := hnd.sublist hsub
          have hnotmem : p.name ∉ post.map Prod.fst := (List.nodup_cons.mp hnd2).1
          have : row.1 ∈ post.map Prod.fst := List.mem_map.mpr ⟨row, hrowpost, rfl⟩
          simp only [beq_eq_false_iff_ne]
          intro hcontra
          rw [hcontra] at this
          exact hnotmem this
        have hFRval : lookupAssoc FR p.name = some (nodeProp p "property_type") := by
          rw [hFR, hrows] at *
          rw [hsplit]
          exact rowsFold_lookup_found p.name (nodeProp p "property_type") hne pre post [] hpost
        rw [hlook p.name, hFRval]
        simp [Option.or]
      · intro n hmem hno
        have hFRnone : lookupAssoc FR n = none := by
          rcases hcase : lookupAssoc FR n with _ | v
          · rfl
          · exfalso
            have : (lookupAssoc FR n).isSome := by rw [hcase]; rfl
            rcases hFRkey n this with ⟨p, hp, hlab, _, hpn, hne⟩
            rcases hno with h0 | h0
            · exact hne h0
            · exact h0 p hp hlab hpn
        constructor
        · rw [hlook n, hFRnone]
          simp [Option.or, hmem]
        · have hkeyfalse : FR.any (fun kv => kv.1 == n) = false := by
            rcases Bool.eq_false_or_eq_true (FR.any (fun kv => kv.1 == n)) with h2 | h2
            · rw [hasKey_iff_lookupAssoc_isSome, hFRnone] at h2
              simp at h2
            · exact h2
          rw [hmain]
          exact fillPair_warn names d n FR [] hmem hkeyfalse

/-- Witness for the amended C9 on a concrete two-Property schema. -/
theorem identify_property_types_classification_witness :
    lookupAssoc (identify_property_types gProps ["likes", "age", "missing"]).1 "likes" =
      some (some (Val.str "ObjectProperty")) := by
  have h := (identify_property_types_classification gProps ["likes", "age", "missing"]
    (by decide)).2.1
  have h2 := h exNodeLikes (by simp [gProps]) (by decide) (by decide) (by decide)
  simpa [exNodeLikes, nodeProp, lookupAssoc] using h2

/-!  ## Claim C8 -/

/-- C8: `auto_detect_domain_label` is a trichotomy on the number of
nodes bearing the name: zero matches raise a not-found error; exactly
one match returns that node's primary label, which is the first label
of the configured priority list present on the node (when one is);
several matches raise a conflict error asking the caller to
disambiguate with an explicit label. -/
theorem auto_detect_domain_label_trichotomy (g : Graph) (priority : List String)
    (domain_name : String) :
    ((matchName g domain_name).length = 0 →
      auto_detect_domain_label g priority domain_name =
        Except.error (OErr.domainNotFound domain_name)) ∧
    (∀ n : Node, matchName g domain_name = [n] →
      auto_detect_domain_label g priority domain_name =
        Except.ok (primaryLabelOf priority n) ∧
      ∀ p : String, priority.find? (fun pl => n.labels.contains pl) = some p → p ≠ "" →
        auto_detect_domain_label g priority domain_name = Except.ok p) ∧
    (2 ≤ (matchName g domain_name).length →
      ∃ lss, auto_detect_domain_label g priority domain_name =
        Except.error (OErr.domainConflict domain_name lss)) := by
  refine ⟨?_, ?_, ?_⟩
  · intro h0
    have hm : matchName g domain_name = [] := List.length_eq_zero.mp h0
    have hf : find_nodes_by_name g domain_name = [] := by
      rw [find_nodes_by_name, hm]
      rfl
    simp only [auto_detect_domain_label, hf]
  · intro n hm
    have hf : find_nodes_by_name g domain_name = [n] := by
      rw [find_nodes_by_name, hm]
      rfl
    constructor
    · simp only [auto_detect_domain_label, hf]
    · intro p hp hne
      simp only [auto_detect_domain_label, hf]
      have hb : (p == "") = false := by simpa [beq_eq_false_iff_ne] using hne
      rw [primaryLabelOf, hp]
      simp [hb]
  · intro h2
    have hlen : 2 ≤ (find_nodes_by_name g domain_name).length := by
      rw [find_nodes_by_name]
      calc 2 ≤ (matchName g domain_name).length := h2
        _ = _ := (List.perm_insertionSort _ (matchName g domain_name)).length_eq.symm
    rcases hf : find_nodes_by_name g domain_name with _ | ⟨n1, rest1⟩
    · rw [hf] at hlen
      simp at hlen
    · rcases rest1 with _ | ⟨n2, rest⟩
      · rw [hf] at hlen
        simp at hlen
      · exact ⟨(n1 :: n2 :: rest).map (fun n => n.labels),
          by simp only [auto_detect_domain_label, hf]⟩

/-- Witness for C8 on a one-node graph. -/
theorem auto_detect_domain_label_trichotomy_witness :
    auto_detect_domain_label gOne defaultLabelsToConstrain "Table" = Except.ok "Class" :=
  ((auto_detect_domain_label_trichotomy gOne defaultLabelsToConstrain "Table").2.1
    exNodeTable (by decide)).2 "Class" (by decide) (by decide)

/-!  ## Claim C1 -/

/-- C1: after a successful (edge-creating) first call, a second
`create_relationship` with identical endpoints and type creates no new
edge: it returns an `already_exists` status with a human-readable
warning and `relationships_created = 0`, leaves the graph unchanged,
and exactly one edge of that type connects the two endpoints. -/
theorem create_relationship_idempotent (g : Graph) (fromPat toPat : NodePat)
    (relType : String) (props props2 : List (String × Val)) (a b : Node)
    (hfrom : matchPat g fromPat = [a]) (hto : matchPat g toPat = [b])
    (hnew : relExistsBetween g a.nid b.nid relType = false) :
    (create_relationship g fromPat toPat relType props).2.relationships_created = 1 ∧
    countRel (create_relationship g fromPat toPat relType props).1 a.nid b.nid relType = 1 ∧
    create_relationship (create_relationship g fromPat toPat relType props).1
        fromPat toPat relType props2 =
      ((create_relationship g fromPat toPat relType props).1,
       { relationships_created := 0
         status := some "already_exists"
         warning := some ("Relationship " ++ relType ++ " already exists and was skipped") }) := by
  have hfirst : create_relationship g fromPat toPat relType props =
      ({ g with edges := g.edges ++ [Edge.mk a.nid b.nid relType props] },
       { relationships_created := 1, properties_set := props.length }) := by
    simp [create_relationship, hfrom, hto, hnew]
  have hnotin : ∀ e ∈ g.edges, ¬(e.src == a.nid && e.dst == b.nid && e.typ == relType) = true := by
    intro e he
    intro hcontra
    have : relExistsBetween g a.nid b.nid relType = true :=
      List.any_eq_true.mpr ⟨e, he, hcontra⟩
    rw [this] at hnew
    exact Bool.true_eq_false.mp hnew
  refine ⟨by rw [hfirst], ?_, ?_⟩
  · rw [hfirst]
    show (((g.edges ++ [Edge.mk a.nid b.nid relType props]).filter
      (fun e => e.src == a.nid && e.dst == b.nid && e.typ == relType)).length) = 1
    rw [List.filter_append]
    have h1 : g.edges.filter (fun e => e.src == a.nid && e.dst == b.nid && e.typ == relType) = [] :=
      List.filter_eq_nil_iff.mpr hnotin
    rw [h1]
    simp
  · have hfrom1 : matchPat (create_relationship g fromPat toPat relType props).1 fromPat = [a] := by
      rw [hfirst]
      exact hfrom
    have hto1 : matchPat (create_relationship g fromPat toPat relType props).1 toPat = [b] := by
      rw [hfirst]
      exact hto
    have hex : relExistsBetween (create_relationship g fromPat toPat relType props).1
        a.nid b.nid relType = true := by
      rw [hfirst]
      show ((g.edges ++ [Edge.mk a.nid b.nid relType props]).any
        (fun e => e.src == a.nid && e.dst == b.nid && e.typ == relType)) = true
      rw [List.any_append]
      simp
    set g1 := (create_relationship g fromPat toPat relType props).1 with hg1
    simp [create_relationship, hfrom1, hto1, hex]

/-- Witness for C1 on two concrete `Instance` nodes. -/
theorem create_relationship_idempotent_witness :
    countRel (create_relationship gRel patS patT "KNOWS" []).1 1 2 "KNOWS" = 1 ∧
    (create_relationship (create_relationship gRel patS patT "KNOWS" []).1
        patS patT "KNOWS" []).2.relationships_created = 0 := by
  have h := create_relationship_idempotent gRel patS patT "KNOWS" [] []
    (nInst 1 "s" []) (nInst 2 "t" []) (by decide) (by decide) (by decide)
  exact ⟨h.2.1, by rw [h.2.2]⟩

/-!  ## Claim C7 -/

/-- C7 counterexample: a rename request whose target name equals the
old name is answered with a `no_op` status and no raised error, even
though a node carrying the target name exists under the label — the
claim's universal "raises a collision error" fails at `old = new`. -/
theorem rename_node_same_name_counterexample :
    check_name_exists gRen "x" (some "Instance") = true ∧
    _rename_node gRen "x" "Instance" "x" "t0" =
      (gRen, Except.ok { nodes_created := 0, nodes_updated := 0,
                         properties_set := 0, status := "no_op" }) :=
  ⟨rfl, rfl⟩

/-- C7 (amended): for a rename request whose new name differs from the
old one, `_rename_node` raises a collision error and performs no write
when a node with the target name exists under the label, and raises a
not-found error with no write when no node carries the old name. -/
theorem rename_node_guards (g : Graph) (old_name lbl new_name now : String)
    (hne : old_name ≠ new_name) :
    (∀ n : Node, get_existing_node g old_name (some lbl) = some n →
      check_name_exists g new_name (some lbl) = true →
      _rename_node g old_name lbl new_name now =
        (g, Except.error (OErr.renameConflict new_name lbl))) ∧
    (get_existing_node g old_name (some lbl) = none →
      _rename_node g old_name lbl new_name now =
        (g, Except.error (OErr.renameSourceMissing old_name lbl))) := by
  have hb : (old_name == new_name) = false := by simpa [beq_eq_false_iff_ne] using hne
  constructor
  · intro n hsome hconf
    simp [_rename_node, hb, hsome, hconf]
  · intro hnone
    simp [_rename_node, hb, hnone]

/-- Witness for the amended C7: renaming `y` onto the taken name `x`
raises a conflict and leaves the graph untouched. -/
theorem rename_node_guards_witness :
    _rename_node gRen "y" "Instance" "x" "t0" =
      (gRen, Except.error (OErr.renameConflict "x" "Instance")) :=
  (rename_node_guards gRen "y" "Instance" "x" "t0" (by decide)).1
    (nInst 2 "y" []) (by decide) (by decide)

/-!  ## Claim C5 -/

/-- C5: deleting an `Object` Instance removes it and every linked
`ObjectField` Instance, with all their incident relationships, in the
one delete write; the result reports `status = "deleted"` and
`fields_count` equal to the number of distinct linked fields. -/
theorem delete_object_cascades (g : Graph) (object_name : String) (b : Bool)
    (o : Node) (N : Nat) (hnd : g.nodes.Nodup)
    (hobj : objectMatches g object_name = [o])
    (hN : (objectFieldsOf g o).length = N) :
    (match (delete_object_by_name g object_name b).2 with
     | Except.ok r => r.status = "deleted" ∧ r.fields_count = N ∧ r.objects_count = 1
     | Except.error _ => False) ∧
    o ∉ (delete_object_by_name g object_name b).1.nodes ∧
    (∀ f ∈ objectFieldsOf g o, f ∉ (delete_object_by_name g object_name b).1.nodes) ∧
    (∀ e ∈ (delete_object_by_name g object_name b).1.edges,
      e.src ≠ o.nid ∧ e.dst ≠ o.nid ∧
      ∀ f ∈ objectFieldsOf g o, e.src ≠ f.nid ∧ e.dst ≠ f.nid) ∧
    (∀ n ∈ g.nodes, n.nid ≠ o.nid → (∀ f ∈ objectFieldsOf g o, n.nid ≠ f.nid) →
      n ∈ (delete_object_by_name g object_name b).1.nodes) ∧
    (∀ e ∈ g.edges, e.src ≠ o.nid → e.dst ≠ o.nid →
      (∀ f ∈ objectFieldsOf g o, e.src ≠ f.nid ∧ e.dst ≠ f.nid) →
      e ∈ (delete_object_by_name g object_name b).1.edges) := by
  have hfieldsnd : (objectFieldsOf g o).Nodup := hnd.filter _
  have hfields : (([o].flatMap (fun x => objectFieldsOf g x)).dedup) = objectFieldsOf g o := by
    rw [List.flatMap_cons, List.flatMap_nil, List.append_nil]
    exact List.dedup_eq_self.mpr hfieldsnd
  have hform : delete_object_by_name g object_name b =
      ({ nodes := g.nodes.filter (fun n =>
            !(((o :: objectFieldsOf g o).map (fun x => x.nid)).dedup.contains n.nid)),
         edges := g.edges.filter (fun e =>
            !((((o :: objectFieldsOf g o).map (fun x => x.nid)).dedup.contains e.src) ||
              (((o :: objectFieldsOf g o).map (fun x => x.nid)).dedup.contains e.dst))) },
       Except.ok
         { name := object_name
           objects_count := 1
           fields_count := (objectFieldsOf g o).length
           nodes_deleted := g.nodes.length - (g.nodes.filter (fun n =>
             !(((o :: objectFieldsOf g o).map (fun x => x.nid)).dedup.contains n.nid))).length
           relationships_deleted := g.edges.length - (g.edges.filter (fun e =>
             !((((o :: objectFieldsOf g o).map (fun x => x.nid)).dedup.contains e.src) ||
               (((o :: objectFieldsOf g o).map (fun x => x.nid)).dedup.contains e.dst)))).length
           status := "deleted" }) := by
    simp only [delete_object_by_name, hobj, hfields, List.isEmpty_cons, Bool.false_eq_true,
      if_neg, not_false_iff, List.cons_append, List.nil_append]
  have hmemD : ∀ i : Nat, i ∈ ((o :: objectFieldsOf g o).map (fun x => x.nid)).dedup ↔
      (i = o.nid ∨ ∃ f ∈ objectFieldsOf g o, i = f.nid) := by
    intro i
    rw [List.mem_dedup, List.mem_map]
    constructor
    · intro ⟨x, hx, hi⟩
      rcases List.mem_cons.mp hx with h1 | h1
      · exact Or.inl (by rw [← hi, h1])
      · exact Or.inr ⟨x, h1, hi.symm⟩
    · intro h
      rcases h with h1 | ⟨f, hf, hi⟩
      · exact ⟨o, List.mem_cons_self o _, h1.symm⟩
      · exact ⟨f, List.mem_cons_of_mem o hf, hi.symm⟩
  have hcont : ∀ i : Nat, (((o :: objectFieldsOf g o).map (fun x => x.nid)).dedup.contains i)
      = true ↔ (i = o.nid ∨ ∃ f ∈ objectFieldsOf g o, i = f.nid) := by
    intro i
    rw [List.elem_iff]
    exact hmemD i
  refine ⟨?_, ?_, ?_, ?_, ?_, ?_⟩
  · rw [hform]
    exact ⟨rfl, hN, rfl⟩
  · rw [hform]
    intro hmem
    rcases List.mem_filter.mp hmem with ⟨_, hpred⟩
    rw [Bool.not_eq_eq_eq_not, Bool.not_true] at hpred
    have : (((o :: objectFieldsOf g o).map (fun x => x.nid)).dedup.contains o.nid) = true :=
      (hcont o.nid).mpr (Or.inl rfl)
    rw [this] at hpred
    exact Bool.true_eq_false.mp hpred
  · rw [hform]
    intro f hf hmem
    rcases List.mem_filter.mp hmem with ⟨_, hpred⟩
    rw [Bool.not_eq_eq_eq_not, Bool.not_true] at hpred
    have : (((o :: objectFieldsOf g o).map (fun x => x.nid)).dedup.contains f.nid) = true :=
      (hcont f.nid).mpr (Or.inr ⟨f, hf, rfl⟩)
    rw [this] at hpred
    exact Bool.true_eq_false.mp hpred
  · rw [hform]
    intro e hmem
    rcases List.mem_filter.mp hmem with ⟨_, hpred⟩
    rw [Bool.not_eq_eq_eq_not, Bool.not_true, Bool.or_eq_false_iff] at hpred
    have hsrc : ¬(e.src = o.nid ∨ ∃ f ∈ objectFieldsOf g o, e.src = f.nid) := by
      intro hc
      have := (hcont e.src).mpr hc
      rw [this] at hpred
      exact Bool.true_eq_false.mp hpred.1
    have hdst : ¬(e.dst = o.nid ∨ ∃ f ∈ objectFieldsOf g o, e.dst = f.nid) := by
      intro hc
      have := (hcont e.dst).mpr hc
      rw [this] at hpred
      exact Bool.true_eq_false.mp hpred.2
    refine ⟨fun h => hsrc (Or.inl h), fun h => hdst (Or.inl h), fun f hf => ?_⟩
    exact ⟨fun h => hsrc (Or.inr ⟨f, hf, h⟩), fun h => hdst (Or.inr ⟨f, hf, h⟩)⟩
  · rw [hform]
    intro n hmem hno hnof
    refine List.mem_filter.mpr ⟨hmem, ?_⟩
    rw [Bool.not_eq_eq_eq_not, Bool.not_true]
    rcases Bool.eq_false_or_eq_true
      ((((o :: objectFieldsOf g o).map (fun x => x.nid)).dedup.contains n.nid)) with h | h
    · exfalso
      rcases (hcont n.nid).mp h with h1 | ⟨f, hf, h1⟩
      · exact hno h1
      · exact hnof f hf h1
    · exact h
  · rw [hform]
    intro e hmem hsrc hdst hnof
    refine List.mem_filter.mpr ⟨hmem, ?_⟩
    rw [Bool.not_eq_eq_eq_not, Bool.not_true, Bool.or_eq_false_iff]
    constructor
    · rcases Bool.eq_false_or_eq_true
        ((((o :: objectFieldsOf g o).map (fun x => x.nid)).dedup.contains e.src)) with h | h
      · exfalso
        rcases (hcont e.src).mp h with h1 | ⟨f, hf, h1⟩
        · exact hsrc h1
        · exact (hnof f hf).1 h1
      · exact h
    · rcases Bool.eq_false_or_eq_true
        ((((o :: objectFieldsOf g o).map (fun x => x.nid)).dedup.contains e.dst)) with h | h
      · exfalso
        rcases (hcont e.dst).mp h with h1 | ⟨f, hf, h1⟩
        · exact hdst h1
        · exact (hnof f hf).2 h1
      · exact h

/-- Witness for C5: deleting `obj1` with its three fields on the
concrete graph. -/
theorem delete_object_cascades_witness :
    (match (delete_object_by_name gObj "obj1" true).2 with
     | Except.ok r => r.status = "deleted" ∧ r.fields_count = 3 ∧ r.objects_count = 1
     | Except.error _ => False) ∧
    exNodeObj ∉ (delete_object_by_name gObj "obj1" true).1.nodes :=
  ⟨(delete_object_cascades gObj "obj1" true exNodeObj 3 (by decide) (by decide) (by decide)).1,
   (delete_object_cascades gObj "obj1" true exNodeObj 3 (by decide) (by decide) (by decide)).2.1⟩

/-!  ## Claim C3 -/

/-- C3: given a concept requiring `{a, b, c}` and a provided set
`{a}`, validation fails with a `ValidationError` whose result carries
`valid = false` and whose missing set is exactly `{b, c}`, each entry
keeping its declaring concept and default value — all gaps are
accumulated, not just the first. -/
theorem validate_reports_all_missing (g : Graph) (cname clabel a b c : String) (v : Val)
    (ra rb rc : PropRow)
    (hreq : get_required_properties_for_concept g cname clabel true = [ra, rb, rc])
    (hna : ra.property_name = a) (hnb : rb.property_name = b) (hnc : rc.property_name = c)
    (hba : b ≠ a) (hca : c ≠ a) :
    (match validate_instance_properties g cname [(a, v)] clabel true with
     | Except.error (OErr.validationError vr) =>
         vr.valid = false ∧
         vr.missing_properties = [mkMissingInfo rb, mkMissingInfo rc] ∧
         vr.missing_properties.map (fun i => i.name) = [b, c] ∧
         vr.missing_properties.map (fun i => i.source_concept) =
           [rb.source_concept, rc.source_concept] ∧
         vr.missing_properties.map (fun i => i.default_value) =
           [rb.default_value, rc.default_value] ∧
         vr.required_properties = [ra, rb, rc]
     | _ => False) := by
  have h1 : (([(a, v)].map (fun kv => kv.1)).contains ra.property_name) = true := by
    rw [hna]
    simp
  have h2 : (([(a, v)].map (fun kv => kv.1)).contains rb.property_name) = false := by
    rw [hnb]
    simp [hba]
  have h3 : (([(a, v)].map (fun kv => kv.1)).contains rc.property_name) = false := by
    rw [hnc]
    simp [hca]
  have hmiss : ([ra, rb, rc].filter
      (fun r => !(([(a, v)].map (fun kv => kv.1)).contains r.property_name))) = [rb, rc] := by
    simp only [List.filter_cons, List.filter_nil, h1, h2, h3, Bool.not_true, Bool.not_false,
      Bool.false_eq_true, if_neg, not_false_iff, if_pos]
  simp only [validate_instance_properties, hreq, hmiss]
  simp [mkMissingInfo, hnb, hnc]

/-- Witness for C3 on the concrete concept `V`. -/
theorem validate_reports_all_missing_witness :
    (match validate_instance_properties gVal "V" [("a", Val.str "1")] "Class" true with
     | Except.error (OErr.validationError vr) =>
         vr.valid = false ∧
         vr.missing_properties = [mkMissingInfo rowB, mkMissingInfo rowC] ∧
         vr.missing_properties.map (fun i => i.name) = ["b", "c"] ∧
         vr.missing_properties.map (fun i => i.source_concept) =
           [rowB.source_concept, rowC.source_concept] ∧
         vr.missing_properties.map (fun i => i.default_value) =
           [rowB.default_value, rowC.default_value] ∧
         vr.required_properties = [rowA, rowB, rowC]
     | _ => False) :=
  validate_reports_all_missing gVal "V" "Class" "a" "b" "c" (Val.str "1")
    rowA rowB rowC (by decide) (by decide) (by decide) (by decide) (by decide) (by decide)

/-!  ## Claim C2 -/

/-- Rows produced by the direct-property query are tagged `direct` and
sourced from the queried concept. -/
theorem mem_directRowsRaw_tag (g : Graph) (clabel cname : String) (row : PropRow)
    (h : row ∈ directRowsRaw g clabel cname) :
    row.inheritance_type = "direct" ∧ row.source_concept = cname := by
  rcases List.mem_flatMap.mp h with ⟨c, _, h2⟩
  rcases List.mem_flatMap.mp h2 with ⟨e, _, h3⟩
  split at h3
  · rcases hfind : findNode g e.dst with _ | p
    · rw [hfind] at h3
      simp at h3
    · rw [hfind] at h3
      simp only at h3
      split at h3
      · have hrow := List.mem_singleton.mp h3
        subst hrow
        exact ⟨rfl, rfl⟩
      · simp at h3
  · simp at h3

/-- Rows produced by the inherited-property query are tagged
`inherited`. -/
theorem mem_inheritedRowsRaw_tag (g : Graph) (clabel cname : String) (row : PropRow)
    (h : row ∈ inheritedRowsRaw g clabel cname) :
    row.inheritance_type = "inherited" := by
  rcases List.mem_flatMap.mp h with ⟨c, _, h2⟩
  rcases List.mem_flatMap.mp h2 with ⟨parent, _, h3⟩
  split at h3
  · rcases List.mem_flatMap.mp h3 with ⟨e, _, h4⟩
    split at h4
    · rcases hfind : findNode g e.dst with _ | p
      · rw [hfind] at h4
        simp at h4
      · rw [hfind] at h4
        simp only at h4
        split at h4
        · have hrow := List.mem_singleton.mp h4
          subst hrow
          rfl
        · simp at h4
    · simp at h4
  · simp at h3

/-- Membership transfer from the sorted direct rows to the raw rows. -/
theorem mem_directRows_iff (g : Graph) (clabel cname : String) (row : PropRow) :
    row ∈ directRows g clabel cname ↔ row ∈ directRowsRaw g clabel cname :=
  (List.perm_insertionSort _ _).mem_iff

/-- Membership transfer from the deduplicated sorted inherited rows to
the raw rows. -/
theorem mem_inheritedRows_iff (g : Graph) (clabel cname : String) (row : PropRow) :
    row ∈ inheritedRows g clabel cname ↔ row ∈ inheritedRowsRaw g clabel cname := by
  rw [inheritedRows]
  rw [(List.perm_insertionSort _ _).mem_iff]
  exact List.mem_dedup

/-- C2: `get_required_properties_for_concept` returns every direct
required property tagged `direct` and sourced from the concept, drops
every inherited required property whose name collides with a direct
one (regardless of ancestor distance), and a property `X` declared
directly exactly once and also inherited from an ancestor appears
exactly once, tagged `direct`, sourced from the concept. -/
theorem required_direct_overrides_inherited (g : Graph) (cname clabel X : String)
    (r : PropRow)
    (hdir : (directRows g clabel cname).filter (fun row => row.property_name == X) = [r])
    (_hanc : ∃ row ∈ inheritedRows g clabel cname, row.property_name = X) :
    (∀ row ∈ directRows g clabel cname,
       row ∈ get_required_properties_for_concept g cname clabel true ∧
       row.inheritance_type = "direct" ∧ row.source_concept = cname) ∧
    (∀ row ∈ inheritedRows g clabel cname,
       row.property_name ∈ (directRows g clabel cname).map (fun d => d.property_name) →
       row ∉ get_required_properties_for_concept g cname clabel true) ∧
    ((get_required_properties_for_concept g cname clabel true).countP
       (fun row => row.property_name == X) = 1) ∧
    r ∈ get_required_properties_for_concept g cname clabel true ∧
    r.inheritance_type = "direct" ∧ r.source_concept = cname := by
  have hr_mem_filter : r ∈ (directRows g clabel cname).filter
      (fun row => row.property_name == X) := by
    rw [hdir]
    exact List.mem_singleton.mpr rfl
  have hr_mem : r ∈ directRows g clabel cname := List.mem_of_mem_filter hr_mem_filter
  have hr_name : r.property_name = X := by
    have := List.of_mem_filter hr_mem_filter
    simpa [beq_iff_eq] using this
  have hresult : get_required_properties_for_concept g cname clabel true =
      directRows g clabel cname ++
        (inheritedRows g clabel cname).filter
          (fun row => !((directRows g clabel cname).map
            (fun rr => rr.property_name)).contains row.property_name) := rfl
  have hXmem : X ∈ (directRows g clabel cname).map (fun d => d.property_name) :=
    List.mem_map.mpr ⟨r, hr_mem, hr_name⟩
  refine ⟨?_, ?_, ?_, ?_, ?_, ?_⟩
  · intro row hrow
    have htag := mem_directRowsRaw_tag g clabel cname row
      ((mem_directRows_iff g clabel cname row).mp hrow)
    exact ⟨by rw [hresult]; exact List.mem_append_left _ hrow, htag.1, htag.2⟩
  · intro row hrow hname hcontra
    have htag : row.inheritance_type = "inherited" :=
      mem_inheritedRowsRaw_tag g clabel cname row
        ((mem_inheritedRows_iff g clabel cname row).mp hrow)
    rw [hresult] at hcontra
    rcases List.mem_append.mp hcontra with hc | hc
    · have := (mem_directRowsRaw_tag g clabel cname row
        ((mem_directRows_iff g clabel cname row).mp hc)).1
      rw [htag] at this
      exact absurd this (by decide)
    · have hf := List.of_mem_filter hc
      rw [Bool.not_eq_eq_eq_not, Bool.not_true] at hf
      have htrue : (((directRows g clabel cname).map
          (fun rr => rr.property_name)).contains row.property_name) = true :=
        List.elem_iff.mpr hname
      rw [htrue] at hf
      exact Bool.true_eq_false.mp hf
  · rw [hresult, List.countP_append]
    have hd : (directRows g clabel cname).countP (fun row => row.property_name == X) = 1 := by
      rw [List.countP_eq_length_filter, hdir]
      rfl
    have hi : ((inheritedRows g clabel cname).filter
        (fun row => !((directRows g clabel cname).map
          (fun rr => rr.property_name)).contains row.property_name)).countP
        (fun row => row.property_name == X) = 0 := by
      rw [List.countP_eq_zero]
      intro row hrow hpred
      have hf := List.of_mem_filter hrow
      have hname : row.property_name = X := by simpa [beq_iff_eq] using hpred
      rw [hname] at hf
      rw [Bool.not_eq_eq_eq_not, Bool.not_true] at hf
      have : (((directRows g clabel cname).map (fun rr => rr.property_name)).contains X)
          = true := List.elem_iff.mpr hXmem
      rw [this] at hf
      exact Bool.true_eq_false.mp hf
    rw [hd, hi]
  · rw [hresult]
    exact List.mem_append_left _ hr_mem
  · exact (mem_directRowsRaw_tag g clabel cname r
      ((mem_directRows_iff g clabel cname r).mp hr_mem)).1
  · exact (mem_directRowsRaw_tag g clabel cname r
      ((mem_directRows_iff g clabel cname r).mp hr_mem)).2

/-- Witness for C2 on `gInh`: `X` is required directly on `C` and on
the ancestor `A`, and appears exactly once. -/
theorem required_direct_overrides_inherited_witness :
    (get_required_properties_for_concept gInh "C" "Class" true).countP
      (fun row => row.property_name == "X") = 1 ∧
    rowX ∈ get_required_properties_for_concept gInh "C" "Class" true := by
  have h := required_direct_overrides_inherited gInh "C" "Class" "X" rowX
    (by decide) (by decide)
  exact ⟨h.2.2.1, h.2.2.2.1⟩

/-!  ## Claim C6 -/

/-- C6: calling `create_instance_node` for an already-existing
Instance with `allow_update = false` and no rename requested (concept
check, validation and target checks passing) returns the stored node
with status `already_exists`, zero nodes created or updated and zero
properties set, and the graph is returned unchanged — zero writes. -/
theorem create_instance_already_exists_no_writes (g : Graph) (priority : List String)
    (now instance_name concept_type : String) (properties : List (String × Val))
    (additional_labels : List String) (validate_required : Bool)
    (concept_label clabel : Option String) (auto_rel auto_obj : Bool) (n : Node)
    (hres : resolveConceptLabel g priority auto_rel concept_type concept_label =
      Except.ok clabel)
    (hval : ∃ res, validate_instance_properties g concept_type
      (properties.filter (fun kv => kv.1 != "name")) (labelStr clabel) true = Except.ok res)
    (htgt : missingTargetPairs g (splitProperties g properties).2 = [])
    (hex : get_existing_node g instance_name (some "Instance") = some n)
    (hnr : (strTruthy (requestedNewName properties) &&
      (requestedNewName properties != some instance_name)) = false) :
    create_instance_node g priority now instance_name concept_type properties
        additional_labels false validate_required concept_label auto_rel auto_obj =
      (g, Except.ok
            { records := [n]
              status := some "already_exists"
              auto_relationship_created := some false }) := by
  obtain ⟨vres, hvres⟩ := hval
  have hv : (if validate_required && !properties.isEmpty then
        match validate_instance_properties g concept_type
          (properties.filter (fun kv => kv.1 != "name")) (labelStr clabel) true with
        | Except.error e => Except.error e
        | Except.ok _ => Except.ok ()
      else if validate_required then
        match validate_instance_properties g concept_type [] (labelStr clabel) true with
        | Except.error e => Except.error e
        | Except.ok _ => Except.ok ()
      else Except.ok ()) = (Except.ok () : Except OErr Unit) := by
    by_cases hpe : properties = []
    · subst hpe
      simp only [List.filter_nil] at hvres
      cases validate_required <;> simp [hvres]
    · have hie : properties.isEmpty = false := by
        rcases properties with _ | _
        · exact absurd rfl hpe
        · rfl
      cases validate_required <;> simp [hie, hvres]
  have ht : (if auto_obj && !(splitProperties g properties).2.isEmpty then
        _validate_object_property_targets g (splitProperties g properties).2
      else Except.ok ()) = (Except.ok () : Except OErr Unit) := by
    cases hc : (auto_obj && !(splitProperties g properties).2.isEmpty)
    · simp
    · simp [hc, _validate_object_property_targets, htgt]
  simp only [create_instance_node, hres, hv, ht, hex]
  simp [hnr]

/-- Witness for C6 on the concrete graph holding Instance `t1`. -/
theorem create_instance_already_exists_no_writes_witness :
    create_instance_node gExisting defaultLabelsToConstrain "t0" "t1" "Table" [] []
        false false none false true =
      (gExisting, Except.ok
        { records := [exNodeT1]
          status := some "already_exists"
          auto_relationship_created := some false }) :=
  create_instance_already_exists_no_writes gExisting defaultLabelsToConstrain "t0" "t1"
    "Table" [] [] false none none false true exNodeT1 rfl ⟨_, rfl⟩ rfl rfl rfl

/-!  ## Claim C4 -/

/-- C4: with ObjectProperty auto-creation enabled and at least one
target missing, `create_instance_node` raises a `MissingTargets` error
before performing any write — the graph comes back unchanged, so no
Instance node is created — and the error lists every missing
`(property, target)` pair, not only the first. -/
theorem create_instance_missing_targets (g : Graph) (priority : List String)
    (now instance_name concept_type : String) (properties : List (String × Val))
    (additional_labels : List String) (allow_update validate_required : Bool)
    (concept_label clabel : Option String) (auto_rel : Bool)
    (hres : resolveConceptLabel g priority auto_rel concept_type concept_label =
      Except.ok clabel)
    (hval : ∃ res, validate_instance_properties g concept_type
      (properties.filter (fun kv => kv.1 != "name")) (labelStr clabel) true = Except.ok res)
    (hmiss : missingTargetPairs g (splitProperties g properties).2 ≠ []) :
    (create_instance_node g priority now instance_name concept_type properties
        additional_labels allow_update validate_required concept_label auto_rel true =
      (g, Except.error (OErr.missingTargets
        (missingTargetPairs g (splitProperties g properties).2)))) ∧
    (∀ pv ∈ (splitProperties g properties).2, ∀ t ∈ targetValsOf pv.2,
      check_name_exists_val g t (some "Instance") = false →
      (pv.1, t) ∈ missingTargetPairs g (splitProperties g properties).2) := by
  obtain ⟨vres, hvres⟩ := hval
  have hv : (if validate_required && !properties.isEmpty then
        match validate_instance_properties g concept_type
          (properties.filter (fun kv => kv.1 != "name")) (labelStr clabel) true with
        | Except.error e => Except.error e
        | Except.ok _ => Except.ok ()
      else if validate_required then
        match validate_instance_properties g concept_type [] (labelStr clabel) true with
        | Except.error e => Except.error e
        | Except.ok _ => Except.ok ()
      else Except.ok ()) = (Except.ok () : Except OErr Unit) := by
    by_cases hpe : properties = []
    · subst hpe
      simp only [List.filter_nil] at hvres
      cases validate_required <;> simp [hvres]
    · have hie : properties.isEmpty = false := by
        rcases properties with _ | _
        · exact absurd rfl hpe
        · rfl
      cases validate_required <;> simp [hie, hvres]
  have hone : ((splitProperties g properties).2).isEmpty = false := by
    rcases hsp : (splitProperties g properties).2 with _ | ⟨p0, r0⟩
    · rw [hsp] at hmiss
      exact absurd rfl hmiss
    · rfl
  have hmie : (missingTargetPairs g (splitProperties g properties).2).isEmpty = false := by
    rcases hm : missingTargetPairs g (splitProperties g properties).2 with _ | _
    · exact absurd hm hmiss
    · rfl
  constructor
  · simp only [create_instance_node, hres, hv]
    simp [hone, _validate_object_property_targets, hmie]
  · intro pv hpv t ht hfalse
    exact List.mem_flatMap.mpr ⟨pv, hpv,
      List.mem_filterMap.mpr ⟨t, ht, by simp [hfalse]⟩⟩

/-- Witness for C4: an ObjectProperty `likes` pointing at the absent
Instance `bob` aborts creation with the missing pair listed and no
node created. -/
theorem create_instance_missing_targets_witness :
    create_instance_node gTargets defaultLabelsToConstrain "t0" "i1" "Thing"
        [("likes", Val.str "bob")] [] false false none false true =
      (gTargets, Except.error (OErr.missingTargets [("likes", Val.str "bob")])) := by
  have h := (create_instance_missing_targets gTargets defaultLabelsToConstrain "t0" "i1"
    "Thing" [("likes", Val.str "bob")] [] false false none none false rfl ⟨_, rfl⟩
    (by decide)).1
  rw [h]
  rfl

end ODLM
